import Mathlib

/-!
Verification of the Dyad Agent Workflow Engine core: the artifact parser
(`src/agents/dayd/parser.ts`), the todo-update sanitizer and post-turn state
machine (`src/ipc/handlers/agent_workflow_handlers.ts`), and the workflow
store service (`src/ipc/handlers/agent_workflow_service.ts`).

The TypeScript code is embedded shallowly:

* JavaScript strings are Lean `String`s; the JS string methods `trim`,
  `toUpperCase` and `toLowerCase` are modelled by `jsTrim`, `jsToUpper` and
  `jsToLower`, defined character-wise over the underlying character list.
* `string | null | undefined` values are `Option String`; where the source
  relies on JS truthiness of a string (empty string is falsy), the helper
  `strTruthy` is used.
* The persistence layer (drizzle queries against the `agent_workflows` /
  `agent_todos` / `agent_execution_logs` tables) is modelled as a single
  in-memory `WorkflowState` per workflow; each service function of
  `agent_workflow_service.ts` becomes a pure state transformer on it.
  `await` sequencing becomes ordinary sequential `let` binding.
* `JSON.parse` composed with a zod schema parse (used for the bodies of
  `analysis` and `plan` tags) is abstracted as a `JsonOracle`: a function
  from the raw (trimmed) body to `Option` of the schema-validated value,
  `none` meaning the parse or validation threw.  Everything else in the
  parser is modelled concretely.
* The two regex scans of `parseAgentArtifacts` (paired tags, then
  self-closing tags) are abstracted as the input list of raw matches
  (`RawTag`: tag name, attribute list, body); self-closing matches simply
  carry an empty body.  The per-match dispatch, attribute handling and all
  accumulator logic follow the source line by line.
-/

/-! ## JS string primitives -/

/-- Character-wise model of JS `String.prototype.toUpperCase`. -/
def jsToUpper (s : String) : String := ⟨s.data.map Char.toUpper⟩

/-- Character-wise model of JS `String.prototype.toLowerCase`. -/
def jsToLower (s : String) : String := ⟨s.data.map Char.toLower⟩

/-- Model of JS `String.prototype.trim`: drop leading and trailing whitespace. -/
def jsTrim (s : String) : String :=
  ⟨((s.data.dropWhile Char.isWhitespace).reverse.dropWhile Char.isWhitespace).reverse⟩

/-- JS truthiness of a `string | null | undefined` value: `null`, `undefined`
and the empty string are falsy. -/
def strTruthy : Option String → Bool
  | none => false
  | some s => !(s == "")

theorem jsToUpper_ne_empty {s : String} (h : s ≠ "") : jsToUpper s ≠ "" := by
  intro hc
  apply h
  have hdata : s.data.map Char.toUpper = [] := congrArg String.data hc
  have hnil : s.data = [] := List.map_eq_nil_iff.mp hdata
  cases s with
  | mk data =>
    simp only at hnil
    rw [hnil]

/-! ## Data model (`src/agents/dayd/types.ts`)

The zod enums become inductive types; zod objects become structures.  Fields
with a zod `.default([])` are plain `List`s (the schema guarantees they are
always present after parsing); `.optional()` fields are `Option`s. -/

/-- `AgentTodoStatusSchema`. -/
inductive TodoStatus
  | pending
  | ready
  | in_progress
  | completed
  | blocked
  | revising
deriving DecidableEq, Repr

/-- `AgentWorkflowStatusSchema`. -/
inductive WorkflowStatus
  | idle
  | analysis
  | plan_ready
  | executing
  | awaiting_user
  | reviewing
  | completed
  | revising
  | error
deriving DecidableEq, Repr

/-- `AgentExecutionLogTypeSchema`. -/
inductive LogType
  | analysis
  | plan
  | execution
  | review
  | command
  | validation
  | system
deriving DecidableEq, Repr

/-- `AgentAnalysisSchema`: every list field carries a zod `.default([])`,
so after schema validation all fields are present. -/
structure AgentAnalysis where
  goals : List String := []
  constraints : List String := []
  acceptanceCriteria : List String := []
  risks : List String := []
  clarifications : List String := []
  dyadTagRefs : List String := []
deriving DecidableEq, Repr

/-- `AgentTodoUpdateSchema`: `todoId` required, the rest optional. -/
structure AgentTodoUpdate where
  todoId : String
  status : Option TodoStatus := none
  dyadTagRefs : Option (List String) := none
  note : Option String := none
deriving DecidableEq, Repr

/-- `AgentPlanTodoInputSchema`. -/
structure AgentPlanTodoInput where
  todoId : String
  title : String
  description : Option String := none
  owner : Option String := none
  inputs : List String := []
  outputs : List String := []
  completionCriteria : Option String := none
  status : Option TodoStatus := none
  dyadTagRefs : List String := []
deriving DecidableEq, Repr

/-- `AgentPlanSchema`.  JS numbers are modelled as `Int` (the plan version is
an integer in every code path: the tag attribute goes through
`Number.parseInt`). -/
structure AgentPlan where
  version : Option Int := none
  todos : List AgentPlanTodoInput := []
  dyadTagRefs : List String := []
  dyadTagContext : List String := []
deriving DecidableEq, Repr

/-! ## Todo-update sanitizer (`sanitizeTodoUpdates`,
`agent_workflow_handlers.ts` lines 191-257) -/

/-- `normalizeTodoId` (lines 186-189): `null`/`undefined`/`""` map to `null`
(JS falsiness), everything else is trimmed and uppercased.  Note that a
whitespace-only id normalizes to `some ""`, which every caller then treats
as falsy via `strTruthy`. -/
def normalizeTodoId : Option String → Option String
  | none => none
  | some s => if s = "" then none else some (jsToUpper (jsTrim s))

/-- The normalized form of an update's `todoId`, as computed inside the
sanitizer loop (`update.todoId?.trim()` then `.toUpperCase()`). -/
def normOf (u : AgentTodoUpdate) : String := jsToUpper (jsTrim u.todoId)

/-- Return shape of `sanitizeTodoUpdates`. -/
structure SanitizeResult where
  updates : List AgentTodoUpdate
  handledTodoId : Option String
  dropped : List (AgentTodoUpdate × String)
deriving DecidableEq, Repr

/-- The rejection reason of the one-task-per-response rule. -/
def oneTaskReason : String :=
  "only one TODO can be completed per response (human-like workflow)"

/-- The `for (const update of updates)` loop of `sanitizeTodoUpdates`,
carrying the two mutable loop variables `lockedTodoId` and
`hasCompletedTodo`.  Each iteration either accepts the update (appending it
to `updates`) or rejects it (appending to `dropped` with a reason), exactly
in the source's rule order. -/
def sanitizeGo (shouldEnforceOneTask : Bool) (normalizedActive : Option String) :
    List AgentTodoUpdate → Option String → Bool → SanitizeResult
  | [], lockedTodoId, _ =>
    { updates := [], handledTodoId := lockedTodoId, dropped := [] }
  | update :: rest, lockedTodoId, hasCompletedTodo =>
    let rawId := jsTrim update.todoId
    if rawId = "" then
      let r := sanitizeGo shouldEnforceOneTask normalizedActive rest lockedTodoId
        hasCompletedTodo
      { r with dropped := (update, "missing todoId") :: r.dropped }
    else
      let normalized := jsToUpper rawId
      if strTruthy normalizedActive && !(normalized == normalizedActive.getD "") then
        let r := sanitizeGo shouldEnforceOneTask normalizedActive rest lockedTodoId
          hasCompletedTodo
        { r with dropped :=
            (update, "expected active todo " ++ normalizedActive.getD "") :: r.dropped }
      else if strTruthy lockedTodoId && !(normalized == lockedTodoId.getD "") then
        let r := sanitizeGo shouldEnforceOneTask normalizedActive rest lockedTodoId
          hasCompletedTodo
        { r with dropped :=
            (update, "already handling " ++ lockedTodoId.getD "") :: r.dropped }
      else
        -- `if (!lockedTodoId) lockedTodoId = normalized` happens before the
        -- completion check, so the lock is updated either way.
        let locked := if strTruthy lockedTodoId then lockedTodoId else some normalized
        if shouldEnforceOneTask && (update.status == some TodoStatus.completed)
            && hasCompletedTodo then
          let r := sanitizeGo shouldEnforceOneTask normalizedActive rest locked
            hasCompletedTodo
          { r with dropped := (update, oneTaskReason) :: r.dropped }
        else
          let r := sanitizeGo shouldEnforceOneTask normalizedActive rest locked
            (hasCompletedTodo || (update.status == some TodoStatus.completed))
          { r with updates := update :: r.updates }

/-- `sanitizeTodoUpdates(updates, activeTodoId?, enforceOneTaskRule?)`.
The source reads the global `getAgentConfig()` for the default of
`enforceOneTaskRule`; the configuration value is passed explicitly here as
`configEnforce`. -/
def sanitizeTodoUpdates (updates : List AgentTodoUpdate)
    (activeTodoId : Option String) (enforceOneTaskRule : Option Bool)
    (configEnforce : Bool) : SanitizeResult :=
  let shouldEnforceOneTask := enforceOneTaskRule.getD configEnforce
  let normalizedActive := normalizeTodoId activeTodoId
  sanitizeGo shouldEnforceOneTask normalizedActive updates normalizedActive false

example :
    (sanitizeTodoUpdates
      [{ todoId := "TD-01", status := some .completed },
       { todoId := "TD-01", status := some .completed }]
      (some "TD-01") (some true) true).updates
    = [{ todoId := "TD-01", status := some .completed }] := by decide

example :
    (sanitizeTodoUpdates
      [{ todoId := "TD-01", status := some .completed },
       { todoId := "TD-02", status := some .completed }]
      (some "TD-01") (some true) true).dropped
    = [({ todoId := "TD-02", status := some .completed },
        "expected active todo TD-01")] := by decide

/-! ### Sanitizer lemmas -/

/-- Accepted updates form a subsequence of the input batch (output order is
input order minus rejections). -/
theorem sanitizeGo_sublist (e : Bool) (nA : Option String) :
    ∀ (l : List AgentTodoUpdate) (locked : Option String) (hc : Bool),
      (sanitizeGo e nA l locked hc).updates.Sublist l := by
  intro l
  induction l with
  | nil => intro locked hc; simp [sanitizeGo]
  | cons u rest ih =>
    intro locked hc
    simp only [sanitizeGo]
    split
    · exact List.Sublist.cons _ (ih _ _)
    · split
      · exact List.Sublist.cons _ (ih _ _)
      · split
        · exact List.Sublist.cons _ (ih _ _)
        · split
          · exact List.Sublist.cons _ (ih _ _)
          · exact List.Sublist.cons₂ _ (ih _ _)

/-- Once the lock is a truthy id it never changes: the returned
`handledTodoId` is the initial lock. -/
theorem sanitizeGo_handled_of_truthy (e : Bool) (nA : Option String) :
    ∀ (l : List AgentTodoUpdate) (locked : Option String) (hc : Bool),
      strTruthy locked = true →
      (sanitizeGo e nA l locked hc).handledTodoId = locked := by
  intro l
  induction l with
  | nil => intro locked hc _; simp [sanitizeGo]
  | cons u rest ih =>
    intro locked hc htr
    simp only [sanitizeGo]
    split
    · exact ih _ _ htr
    · split
      · exact ih _ _ htr
      · split
        · exact ih _ _ htr
        · split
          · exact ih _ _ htr
          · exact ih _ _ htr

/-- Every accepted update normalizes to the final lock (`handledTodoId`). -/
theorem sanitizeGo_mem_norm (e : Bool) (nA : Option String) :
    ∀ (l : List AgentTodoUpdate) (locked : Option String) (hc : Bool)
      (u : AgentTodoUpdate), u ∈ (sanitizeGo e nA l locked hc).updates →
      (sanitizeGo e nA l locked hc).handledTodoId = some (normOf u) := by
  intro l
  induction l with
  | nil => intro locked hc u hu; simp [sanitizeGo] at hu
  | cons u0 rest ih =>
    intro locked hc u
    simp only [sanitizeGo]
    split
    · exact ih _ _ u
    · split
      · exact ih _ _ u
      · rename_i hraw hactive
        split
        · exact ih _ _ u
        · rename_i hlock
          have hlocked :
              (if strTruthy locked = true then locked
                else some (jsToUpper (jsTrim u0.todoId)))
                = some (jsToUpper (jsTrim u0.todoId)) := by
            by_cases htr : strTruthy locked = true
            · rw [if_pos htr]
              have hx : (jsToUpper (jsTrim u0.todoId) == locked.getD "") = true := by
                cases hxy : (jsToUpper (jsTrim u0.todoId) == locked.getD "")
                · exact absurd (by rw [htr, hxy]; rfl) hlock
                · rfl
              cases locked with
              | none => simp [strTruthy] at htr
              | some s =>
                have hs : jsToUpper (jsTrim u0.todoId) = s := by
                  have := eq_of_beq hx
                  simpa using this
                rw [hs]
            · rw [if_neg htr]
          rw [hlocked]
          have htr2 : strTruthy (some (jsToUpper (jsTrim u0.todoId))) = true := by
            have hne : jsToUpper (jsTrim u0.todoId) ≠ "" :=
              jsToUpper_ne_empty hraw
            simp [strTruthy, hne]
          split
          · exact ih _ _ u
          · intro hu
            rcases List.mem_cons.mp hu with rfl | hu2
            · exact sanitizeGo_handled_of_truthy e nA rest _ _ htr2
            · exact ih _ _ u hu2

/-- With the one-task rule enforced, the accepted list contains at most one
completion (none at all if a completion was already recorded). -/
theorem sanitizeGo_count_le (nA : Option String) :
    ∀ (l : List AgentTodoUpdate) (locked : Option String) (hc : Bool),
      (sanitizeGo true nA l locked hc).updates.countP
          (fun u => u.status == some TodoStatus.completed)
        ≤ (if hc then 0 else 1) := by
  intro l
  induction l with
  | nil => intro locked hc; simp [sanitizeGo]
  | cons u rest ih =>
    intro locked hc
    simp only [sanitizeGo]
    split
    · exact ih _ _
    · split
      · exact ih _ _
      · split
        · exact ih _ _
        · split
          · rename_i hcond
            have hc1 : hc = true := by
              cases hc
              · simp at hcond
              · rfl
            subst hc1
            exact ih _ _
          · rename_i hcond
            cases hstat : u.status == some TodoStatus.completed with
            | false =>
              have h2 := ih (if strTruthy locked = true then locked
                else some (jsToUpper (jsTrim u.todoId)))
                (hc || (u.status == some TodoStatus.completed))
              rw [hstat, Bool.or_false] at h2
              simpa [List.countP_cons, hstat] using h2
            | true =>
              have hc0 : hc = false := by
                cases hc
                · rfl
                · exact absurd (by simp [hstat]) hcond
              subst hc0
              have h2 := ih (if strTruthy locked = true then locked
                else some (jsToUpper (jsTrim u.todoId)))
                (false || (u.status == some TodoStatus.completed))
              rw [hstat] at h2
              have h3 : (sanitizeGo true nA rest
                  (if strTruthy locked = true then locked
                    else some (jsToUpper (jsTrim u.todoId)))
                  true).updates.countP
                    (fun v => v.status == some TodoStatus.completed) ≤ 0 := by
                simpa using h2
              simp [List.countP_cons, hstat]
              intro a ha
              have h4 := List.countP_eq_zero.mp (Nat.le_zero.mp h3) a ha
              simpa using h4

/-! ### Claim C1 -/

/-- C1: with `enforceOneTaskRule = true`, `sanitizeTodoUpdates` accepts at
most one update whose status is `completed`, for every batch and every
`activeTodoId`; and whenever a batch contains two completion updates for the
same (valid, active-compatible) todo id, the first is accepted and the second
is dropped with exactly the reason
"only one TODO can be completed per response (human-like workflow)". -/
theorem sanitize_one_completion_rule (updates : List AgentTodoUpdate)
    (activeTodoId : Option String) (configEnforce : Bool) :
    ((sanitizeTodoUpdates updates activeTodoId (some true) configEnforce).updates.countP
        (fun u => u.status == some TodoStatus.completed) ≤ 1)
    ∧ (∀ u1 u2 : AgentTodoUpdate,
        u1.status = some TodoStatus.completed →
        u2.status = some TodoStatus.completed →
        jsTrim u1.todoId ≠ "" → jsTrim u2.todoId ≠ "" →
        normOf u2 = normOf u1 →
        (strTruthy (normalizeTodoId activeTodoId) = false ∨
          normalizeTodoId activeTodoId = some (normOf u1)) →
        sanitizeTodoUpdates [u1, u2] activeTodoId (some true) configEnforce
          = { updates := [u1], handledTodoId := some (normOf u1),
              dropped := [(u2, oneTaskReason)] }) := by
  constructor
  · have h := sanitizeGo_count_le (normalizeTodoId activeTodoId) updates
      (normalizeTodoId activeTodoId) false
    simpa [sanitizeTodoUpdates] using h
  · intro u1 u2 hs1 hs2 hraw1 hraw2 hnorm hdisj
    have hne1 : jsToUpper (jsTrim u1.todoId) ≠ "" := jsToUpper_ne_empty hraw1
    simp only [normOf] at hnorm hdisj ⊢
    rcases hdisj with hact | hact
    · simp [sanitizeTodoUpdates, sanitizeGo, hraw1, hraw2, hact, hs1, hs2,
        hnorm, hne1]
    · simp [sanitizeTodoUpdates, sanitizeGo, hraw1, hraw2, hact, hs1, hs2,
        hnorm, hne1, strTruthy]

def completedTD01 : AgentTodoUpdate :=
  { todoId := "TD-01", status := some TodoStatus.completed }

def completedTD01Lower : AgentTodoUpdate :=
  { todoId := "td-01 ", status := some TodoStatus.completed }

/-- Witness for C1 at a concrete batch: two completions of the active todo;
the second is dropped with the one-task reason. -/
theorem sanitize_one_completion_rule_witness :
    sanitizeTodoUpdates [completedTD01, completedTD01Lower]
      (some "TD-01") (some true) true
    = { updates := [completedTD01],
        handledTodoId := some (normOf completedTD01),
        dropped := [(completedTD01Lower, oneTaskReason)] } :=
  (sanitize_one_completion_rule [] (some "TD-01") true).2
    completedTD01 completedTD01Lower rfl rfl (by decide) (by decide)
    (by decide) (Or.inr (by decide))

/-! ### Claim C2 -/

/-- C2 (amended): the accepted updates form a subsequence of the input in
input order; when `activeTodoId` normalizes to a truthy (non-empty) id,
every accepted update's normalized todoId equals it; when `activeTodoId` is
null, empty or blank (normalizes to a falsy value), every accepted update's
normalized todoId equals that of the first accepted update. -/
theorem sanitize_lock_spec (updates : List AgentTodoUpdate)
    (activeTodoId : Option String) (enforceOneTaskRule : Option Bool)
    (configEnforce : Bool) :
    ((sanitizeTodoUpdates updates activeTodoId enforceOneTaskRule
        configEnforce).updates.Sublist updates)
    ∧ (strTruthy (normalizeTodoId activeTodoId) = true →
        ∀ u ∈ (sanitizeTodoUpdates updates activeTodoId enforceOneTaskRule
            configEnforce).updates,
          some (normOf u) = normalizeTodoId activeTodoId)
    ∧ (strTruthy (normalizeTodoId activeTodoId) = false →
        ∀ u ∈ (sanitizeTodoUpdates updates activeTodoId enforceOneTaskRule
            configEnforce).updates,
          ∀ v, (sanitizeTodoUpdates updates activeTodoId enforceOneTaskRule
              configEnforce).updates.head? = some v →
            normOf u = normOf v) := by
  refine ⟨?_, ?_, ?_⟩
  · exact sanitizeGo_sublist _ _ updates _ _
  · intro htr u hu
    have h1 := sanitizeGo_mem_norm (enforceOneTaskRule.getD configEnforce)
      (normalizeTodoId activeTodoId) updates (normalizeTodoId activeTodoId)
      false u hu
    have h2 := sanitizeGo_handled_of_truthy
      (enforceOneTaskRule.getD configEnforce) (normalizeTodoId activeTodoId)
      updates (normalizeTodoId activeTodoId) false htr
    exact h1.symm.trans h2
  · intro _ u hu v hv
    have hvmem : v ∈ (sanitizeTodoUpdates updates activeTodoId
        enforceOneTaskRule configEnforce).updates := List.mem_of_mem_head? hv
    have h1 := sanitizeGo_mem_norm (enforceOneTaskRule.getD configEnforce)
      (normalizeTodoId activeTodoId) updates (normalizeTodoId activeTodoId)
      false u hu
    have h2 := sanitizeGo_mem_norm (enforceOneTaskRule.getD configEnforce)
      (normalizeTodoId activeTodoId) updates (normalizeTodoId activeTodoId)
      false v hvmem
    exact Option.some.inj (h1.symm.trans h2)

def updTD01 : AgentTodoUpdate := { todoId := "TD-01" }

/-- C2 counterexample: with the non-null `activeTodoId = ""`, the update
"TD-01" is accepted even though its normalized id differs from the
normalized `activeTodoId` (the code treats an id that normalizes to a falsy
value as absent). -/
theorem sanitize_active_filter_counterexample :
    (sanitizeTodoUpdates [updTD01] (some "") none true).updates = [updTD01]
    ∧ ¬ (∀ u ∈ (sanitizeTodoUpdates [updTD01] (some "") none true).updates,
          jsToUpper (jsTrim u.todoId) = jsToUpper (jsTrim "")) := by
  constructor
  · decide
  · decide

/-- Witness for C2 at a concrete batch with a truthy active id. -/
theorem sanitize_lock_spec_witness :
    some (normOf updTD01) = normalizeTodoId (some "td-01") :=
  (sanitize_lock_spec [updTD01] (some "td-01") none true).2.1 (by decide)
    updTD01 (by decide)

/-! ## Artifact parser (`src/agents/dayd/parser.ts`) -/

/-- A raw tag match produced by the regex scans: tag name (the group after
`dyad-agent-`), the raw attribute `key="value"` pairs in source order (later
duplicates overwrite earlier ones, as JS object assignment does), and the
body (empty for self-closing tags).  The input of `parseAgentArtifacts` is
the concatenation of the paired-tag matches and the self-closing matches,
in the order the two scans visit them. -/
structure RawTag where
  name : String
  attrs : List (String × String)
  body : String
deriving DecidableEq, Repr

/-- Abstraction of `JSON.parse` + zod schema validation for the two
JSON-bearing tag bodies: `none` models a thrown parse/validation error. -/
structure JsonOracle where
  analysisResult : String → Option AgentAnalysis
  planResult : String → Option AgentPlan

/-- One entry of the parsed bundle's `logs` array.  The optional `metadata`
field (the body re-parsed as JSON when it starts with a brace) is not
modelled: no verified property mentions it. -/
structure ParsedLog where
  todoId : Option String := none
  todoKey : Option String := none
  logType : LogType
  content : String
  dyadTagRefs : Option (List String) := none
deriving DecidableEq, Repr

/-- The parsed artifact bundle (`AgentParsedArtifacts`), also used as the
parser's accumulator state (the source's local variables).
`currentTodoId : Option (Option String)` models
`string | null | undefined`. -/
structure AgentParsedArtifacts where
  analysis : Option AgentAnalysis := none
  plan : Option AgentPlan := none
  todoUpdates : List AgentTodoUpdate := []
  logs : List ParsedLog := []
  workflowStatus : Option WorkflowStatus := none
  currentTodoId : Option (Option String) := none
  autoAdvance : Option Bool := none
  warnings : List String := []
deriving DecidableEq, Repr

/-- JS object attribute access `attrs.key`: the last assignment wins. -/
def getAttr (attrs : List (String × String)) (key : String) : Option String :=
  (attrs.reverse.find? (fun p => p.1 == key)).map (fun p => p.2)

/-- Split a character list on runs of separators, keeping only the non-empty
tokens (models `raw.split(/[\s,]+/).map(trim).filter(Boolean)`: the tokens
contain no separator character, so the per-token trim is the identity). -/
def tokenizeGo (p : Char → Bool) : List Char → List Char → List String
  | [], acc => if acc.isEmpty then [] else [⟨acc.reverse⟩]
  | c :: cs, acc =>
    if p c then
      if acc.isEmpty then tokenizeGo p cs []
      else (⟨acc.reverse⟩ : String) :: tokenizeGo p cs []
    else tokenizeGo p cs (c :: acc)

/-- `parseDyadTagRefs(raw?)`. -/
def parseDyadTagRefs : Option String → Option (List String)
  | none => none
  | some raw =>
    if raw = "" then none
    else
      let tokens := tokenizeGo (fun c => c.isWhitespace || c == ',') raw.data []
      if tokens.isEmpty then none else some tokens

/-- Accumulate the numeric value of a decimal digit run. -/
def digitsToNat : List Char → Nat → Nat
  | [], acc => acc
  | c :: cs, acc => digitsToNat cs (acc * 10 + (c.toNat - '0'.toNat))

/-- `Number.parseInt(s, 10)`: skip leading whitespace, optional sign, then
the longest leading digit run; `none` models `NaN`. -/
def parseIntJS (s : String) : Option Int :=
  match (jsTrim s).data with
  | [] => none
  | c :: cs =>
    let signAndDigits : Int × List Char :=
      if c = '-' then (-1, cs) else if c = '+' then (1, cs) else (1, c :: cs)
    let digits := signAndDigits.2.takeWhile Char.isDigit
    if digits.isEmpty then none
    else some (signAndDigits.1 * Int.ofNat (digitsToNat digits 0))

/-- `AgentTodoStatusSchema.safeParse` on a string. -/
def parseTodoStatus : String → Option TodoStatus
  | "pending" => some TodoStatus.pending
  | "ready" => some TodoStatus.ready
  | "in_progress" => some TodoStatus.in_progress
  | "completed" => some TodoStatus.completed
  | "blocked" => some TodoStatus.blocked
  | "revising" => some TodoStatus.revising
  | _ => none

/-- `AgentWorkflowStatusSchema.safeParse` on a string. -/
def parseWorkflowStatus : String → Option WorkflowStatus
  | "idle" => some WorkflowStatus.idle
  | "analysis" => some WorkflowStatus.analysis
  | "plan_ready" => some WorkflowStatus.plan_ready
  | "executing" => some WorkflowStatus.executing
  | "awaiting_user" => some WorkflowStatus.awaiting_user
  | "reviewing" => some WorkflowStatus.reviewing
  | "completed" => some WorkflowStatus.completed
  | "revising" => some WorkflowStatus.revising
  | "error" => some WorkflowStatus.error
  | _ => none

/-- `AgentExecutionLogTypeSchema.safeParse` on a string. -/
def parseLogType : String → Option LogType
  | "analysis" => some LogType.analysis
  | "plan" => some LogType.plan
  | "execution" => some LogType.execution
  | "review" => some LogType.review
  | "command" => some LogType.command
  | "validation" => some LogType.validation
  | "system" => some LogType.system
  | _ => none

/-- `parseJsonContent` (parser.ts lines 59-74): empty trimmed body yields
`undefined` with no warning; a failed parse yields `undefined` plus a
warning naming the context (the JS error text appended to the message is
abstracted away).  Returns the value and the warnings to append. -/
def parseJsonContent {α : Type} (oracleResult : String → Option α)
    (content : String) (context : String) : Option α × List String :=
  let trimmed := jsTrim content
  if trimmed = "" then (none, [])
  else
    match oracleResult trimmed with
    | some v => (some v, [])
    | none => (none, ["Failed to parse JSON for " ++ context])

/-- The `case "analysis"` handler. -/
def handleAnalysisTag (oracle : JsonOracle) (st : AgentParsedArtifacts)
    (body : String) : AgentParsedArtifacts :=
  let pr := parseJsonContent oracle.analysisResult body "analysis"
  { st with warnings := st.warnings ++ pr.2,
            analysis := pr.1 <|> st.analysis }

/-- The `case "plan"` handler.  The `if (!plan.dyadTagRefs)` and
`if (!plan.dyadTagContext)` fallbacks of the source are dead code: the zod
schema defaults both fields to `[]`, and an empty array is truthy in JS, so
neither condition can hold after a successful schema parse. -/
def handlePlanTag (oracle : JsonOracle) (st : AgentParsedArtifacts)
    (attrs : List (String × String)) (body : String) : AgentParsedArtifacts :=
  let pr := parseJsonContent oracle.planResult body "plan"
  let st1 := { st with warnings := st.warnings ++ pr.2 }
  match pr.1 with
  | none => st1
  | some plan0 =>
    let plan1 :=
      if strTruthy (getAttr attrs "version") then
        match parseIntJS ((getAttr attrs "version").getD "") with
        | some v => { plan0 with version := some v }
        | none => plan0
      else plan0
    { st1 with plan := some plan1 }

/-- The `case "todo-update"` handler.  `AgentTodoUpdateSchema.safeParse`
fails exactly when the todoId attribute (`todoId` or `id`) is absent, or a
present `status` attribute is not a valid todo status; the zod error text in
the warning is abstracted to a fixed message. -/
def handleTodoUpdateTag (st : AgentParsedArtifacts)
    (attrs : List (String × String)) (body : String) : AgentParsedArtifacts :=
  match getAttr attrs "todoId" <|> getAttr attrs "id" with
  | none => { st with warnings := st.warnings ++ ["Invalid todo update payload"] }
  | some tid =>
    match getAttr attrs "status" with
    | none =>
      { st with todoUpdates := st.todoUpdates ++
          [{ todoId := tid, status := none,
             dyadTagRefs := parseDyadTagRefs (getAttr attrs "dyadTagRefs"),
             note := if jsTrim body = "" then none else some (jsTrim body) }] }
    | some sAttr =>
      match parseTodoStatus sAttr with
      | none =>
        { st with warnings := st.warnings ++ ["Invalid todo update payload"] }
      | some stat =>
        { st with todoUpdates := st.todoUpdates ++
            [{ todoId := tid, status := some stat,
               dyadTagRefs := parseDyadTagRefs (getAttr attrs "dyadTagRefs"),
               note := if jsTrim body = "" then none else some (jsTrim body) }] }

/-- The `case "log"` handler. -/
def handleLogTag (st : AgentParsedArtifacts)
    (attrs : List (String × String)) (body : String) : AgentParsedArtifacts :=
  let rawType := ((getAttr attrs "type") <|> (getAttr attrs "logType")).getD "execution"
  match parseLogType rawType with
  | none => { st with warnings := st.warnings ++ ["Unknown log type: " ++ rawType] }
  | some lt =>
    { st with logs := st.logs ++
        [{ todoId := (getAttr attrs "todoId") <|> (getAttr attrs "id"),
           todoKey := getAttr attrs "todoKey",
           logType := lt,
           content := jsTrim body,
           dyadTagRefs := parseDyadTagRefs (getAttr attrs "dyadTagRefs") }] }

/-- The `case "status"` handler. -/
def handleStatusTag (st : AgentParsedArtifacts)
    (attrs : List (String × String)) (body : String) : AgentParsedArtifacts :=
  match parseWorkflowStatus ((getAttr attrs "state").getD (jsTrim body)) with
  | some ws => { st with workflowStatus := some ws }
  | none =>
    { st with warnings := st.warnings ++
        ["Invalid workflow status value: " ++ (getAttr attrs "state").getD body] }

/-- The `case "focus"` handler: `attrs.todoId ?? attrs.id ?? null`. -/
def handleFocusTag (st : AgentParsedArtifacts)
    (attrs : List (String × String)) : AgentParsedArtifacts :=
  { st with currentTodoId := some ((getAttr attrs "todoId") <|> (getAttr attrs "id")) }

/-- The `case "auto"` handler: a truthy `enabled` attribute maps `"true"`
and `"1"` to `true`; otherwise a non-empty trimmed body is compared
case-insensitively against `"true"` only. -/
def handleAutoTag (st : AgentParsedArtifacts)
    (attrs : List (String × String)) (body : String) : AgentParsedArtifacts :=
  if strTruthy (getAttr attrs "enabled") then
    { st with autoAdvance := some ((getAttr attrs "enabled").getD "" == "true"
        || (getAttr attrs "enabled").getD "" == "1") }
  else if jsTrim body ≠ "" then
    { st with autoAdvance := some (jsToLower (jsTrim body) == "true") }
  else st

/-- The `case "error"` handler: mapped to a system log. -/
def handleErrorTag (st : AgentParsedArtifacts)
    (attrs : List (String × String)) (body : String) : AgentParsedArtifacts :=
  { st with logs := st.logs ++
      [{ todoId := getAttr attrs "todoId",
         todoKey := none,
         logType := LogType.system,
         content := jsTrim body,
         dyadTagRefs := parseDyadTagRefs (getAttr attrs "dyadTagRefs") }] }

/-- The names the `switch` of `handleTag` recognizes (including the two
silently ignored ones). -/
def handledTagNames : List String :=
  ["analysis", "plan", "todo-update", "log", "status", "focus", "auto",
   "error", "todo", "summary"]

/-- The `handleTag` dispatch (parser.ts lines 86-218); `tagName` arrives
already lowercased.  `"todo"` and `"summary"` are silently ignored; any
other unrecognized name appends an "Unhandled agent tag" warning. -/
def handleTag (oracle : JsonOracle) (st : AgentParsedArtifacts)
    (tagName : String) (attrs : List (String × String)) (body : String) :
    AgentParsedArtifacts :=
  if tagName = "analysis" then handleAnalysisTag oracle st body
  else if tagName = "plan" then handlePlanTag oracle st attrs body
  else if tagName = "todo-update" then handleTodoUpdateTag st attrs body
  else if tagName = "log" then handleLogTag st attrs body
  else if tagName = "status" then handleStatusTag st attrs body
  else if tagName = "focus" then handleFocusTag st attrs
  else if tagName = "auto" then handleAutoTag st attrs body
  else if tagName = "error" then handleErrorTag st attrs body
  else if tagName = "todo" then st
  else if tagName = "summary" then st
  else { st with warnings := st.warnings ++ ["Unhandled agent tag: " ++ tagName] }

/-- `parseAgentArtifacts`: dispatch every regex match in scan order into the
accumulator, starting from the empty bundle; total, never throws. -/
def parseAgentArtifacts (oracle : JsonOracle) (tags : List RawTag) :
    AgentParsedArtifacts :=
  tags.foldl (fun st t => handleTag oracle st (jsToLower t.name) t.attrs t.body) {}

/-- An oracle on which every JSON body fails to parse. -/
def nullOracle : JsonOracle :=
  { analysisResult := fun _ => none, planResult := fun _ => none }

example :
    (parseAgentArtifacts nullOracle
      [{ name := "focus", attrs := [("todoId", "TD-02")], body := "" },
       { name := "auto", attrs := [("enabled", "true")], body := "" }])
    = { currentTodoId := some (some "TD-02"), autoAdvance := some true } := by
  decide

/-! ### Parser lemmas -/

/-- Warnings-membership preservation for each tag handler. -/
theorem handleAnalysisTag_warnings_subset (oracle : JsonOracle)
    (st : AgentParsedArtifacts) (body : String) {msg : String}
    (hmsg : msg ∈ st.warnings) :
    msg ∈ (handleAnalysisTag oracle st body).warnings :=
  List.mem_append_left _ hmsg

theorem handlePlanTag_warnings_subset (oracle : JsonOracle)
    (st : AgentParsedArtifacts) (attrs : List (String × String))
    (body : String) {msg : String} (hmsg : msg ∈ st.warnings) :
    msg ∈ (handlePlanTag oracle st attrs body).warnings := by
  simp only [handlePlanTag]
  split
  · exact List.mem_append_left _ hmsg
  · exact List.mem_append_left _ hmsg

theorem handleTodoUpdateTag_warnings_subset (st : AgentParsedArtifacts)
    (attrs : List (String × String)) (body : String) {msg : String}
    (hmsg : msg ∈ st.warnings) :
    msg ∈ (handleTodoUpdateTag st attrs body).warnings := by
  simp only [handleTodoUpdateTag]
  repeat' split
  all_goals first
    | exact hmsg
    | exact List.mem_append_left _ hmsg

theorem handleLogTag_warnings_subset (st : AgentParsedArtifacts)
    (attrs : List (String × String)) (body : String) {msg : String}
    (hmsg : msg ∈ st.warnings) :
    msg ∈ (handleLogTag st attrs body).warnings := by
  simp only [handleLogTag]
  split
  · exact List.mem_append_left _ hmsg
  · exact hmsg

theorem handleStatusTag_warnings_subset (st : AgentParsedArtifacts)
    (attrs : List (String × String)) (body : String) {msg : String}
    (hmsg : msg ∈ st.warnings) :
    msg ∈ (handleStatusTag st attrs body).warnings := by
  simp only [handleStatusTag]
  split
  · exact hmsg
  · exact List.mem_append_left _ hmsg

theorem handleAutoTag_warnings_subset (st : AgentParsedArtifacts)
    (attrs : List (String × String)) (body : String) {msg : String}
    (hmsg : msg ∈ st.warnings) :
    msg ∈ (handleAutoTag st attrs body).warnings := by
  simp only [handleAutoTag]
  repeat' split
  all_goals exact hmsg

/-- Every branch of the dispatch only ever appends to `warnings`:
membership is preserved. -/
theorem handleTag_warnings_subset (oracle : JsonOracle)
    (st : AgentParsedArtifacts) (tagName : String)
    (attrs : List (String × String)) (body : String) {msg : String}
    (hmsg : msg ∈ st.warnings) :
    msg ∈ (handleTag oracle st tagName attrs body).warnings := by
  unfold handleTag
  repeat' split
  · exact handleAnalysisTag_warnings_subset oracle st body hmsg
  · exact handlePlanTag_warnings_subset oracle st attrs body hmsg
  · exact handleTodoUpdateTag_warnings_subset st attrs body hmsg
  · exact handleLogTag_warnings_subset st attrs body hmsg
  · exact handleStatusTag_warnings_subset st attrs body hmsg
  · exact hmsg
  · exact handleAutoTag_warnings_subset st attrs body hmsg
  · exact hmsg
  · exact hmsg
  · exact hmsg
  · exact List.mem_append_left _ hmsg

/-- Warnings accumulated before a fold survive it. -/
theorem parseFold_warnings_subset (oracle : JsonOracle) {msg : String} :
    ∀ (tags : List RawTag) (st : AgentParsedArtifacts), msg ∈ st.warnings →
      msg ∈ (tags.foldl
        (fun s t => handleTag oracle s (jsToLower t.name) t.attrs t.body)
        st).warnings := by
  intro tags
  induction tags with
  | nil => intro st hmsg; exact hmsg
  | cons t rest ih =>
    intro st hmsg
    rw [List.foldl_cons]
    exact ih _ (handleTag_warnings_subset oracle st (jsToLower t.name)
      t.attrs t.body hmsg)

/-- If the handler of some member tag emits `msg` from every state, then
`msg` is among the fold's final warnings. -/
theorem parseFold_warning_of_mem (oracle : JsonOracle) (t : RawTag)
    (msg : String)
    (happ : ∀ s : AgentParsedArtifacts,
      msg ∈ (handleTag oracle s (jsToLower t.name) t.attrs t.body).warnings) :
    ∀ (tags : List RawTag) (st : AgentParsedArtifacts), t ∈ tags →
      msg ∈ (tags.foldl
        (fun s x => handleTag oracle s (jsToLower x.name) x.attrs x.body)
        st).warnings := by
  intro tags
  induction tags with
  | nil => intro st ht; cases ht
  | cons t0 rest ih =>
    intro st ht
    rw [List.foldl_cons]
    rcases List.mem_cons.mp ht with rfl | hmem
    · exact parseFold_warnings_subset oracle rest _ (happ st)
    · exact ih _ hmem

/-- The default branch of the dispatch: a tag name outside the recognized
set appends exactly the "Unhandled agent tag" warning. -/
theorem handleTag_unhandled (oracle : JsonOracle) (st : AgentParsedArtifacts)
    (tagName : String) (attrs : List (String × String)) (body : String)
    (h : tagName ∉ handledTagNames) :
    (handleTag oracle st tagName attrs body).warnings
      = st.warnings ++ ["Unhandled agent tag: " ++ tagName] := by
  have h1 : ¬ tagName = "analysis" := fun he => h (by rw [he]; decide)
  have h2 : ¬ tagName = "plan" := fun he => h (by rw [he]; decide)
  have h3 : ¬ tagName = "todo-update" := fun he => h (by rw [he]; decide)
  have h4 : ¬ tagName = "log" := fun he => h (by rw [he]; decide)
  have h5 : ¬ tagName = "status" := fun he => h (by rw [he]; decide)
  have h6 : ¬ tagName = "focus" := fun he => h (by rw [he]; decide)
  have h7 : ¬ tagName = "auto" := fun he => h (by rw [he]; decide)
  have h8 : ¬ tagName = "error" := fun he => h (by rw [he]; decide)
  have h9 : ¬ tagName = "todo" := fun he => h (by rw [he]; decide)
  have h10 : ¬ tagName = "summary" := fun he => h (by rw [he]; decide)
  unfold handleTag
  rw [if_neg h1, if_neg h2, if_neg h3, if_neg h4, if_neg h5, if_neg h6,
    if_neg h7, if_neg h8, if_neg h9, if_neg h10]

/-! ### Claim C8 -/

def todoRawTag : RawTag := { name := "todo", attrs := [], body := "" }

/-- C8 counterexample: a matched tag named "todo" is not one of the eight
documented tag kinds, yet the parser ignores it silently and appends no
warning at all. -/
theorem parser_unknown_tag_counterexample :
    (parseAgentArtifacts nullOracle [todoRawTag]).warnings = []
    ∧ "todo" ∉ ["analysis", "plan", "todo-update", "log", "status", "focus",
        "auto", "error"] := by
  constructor
  · decide
  · decide

/-- C8 (amended): every matched tag whose lowercased name is neither a
documented tag kind nor one of the two silently ignored names "todo" and
"summary" contributes a warning carrying that tag's name to the returned
bundle. -/
theorem parser_unknown_tag_warning (oracle : JsonOracle) (tags : List RawTag)
    (t : RawTag) (ht : t ∈ tags)
    (hname : jsToLower t.name ∉ handledTagNames) :
    ("Unhandled agent tag: " ++ jsToLower t.name)
      ∈ (parseAgentArtifacts oracle tags).warnings := by
  unfold parseAgentArtifacts
  refine parseFold_warning_of_mem oracle t _ ?_ tags {} ht
  intro s
  rw [handleTag_unhandled oracle s (jsToLower t.name) t.attrs t.body hname]
  exact List.mem_append_right _ (by simp)

def bananaTag : RawTag := { name := "Banana", attrs := [], body := "" }

/-- Witness for C8 (amended) at a concrete unrecognized tag. -/
theorem parser_unknown_tag_warning_witness :
    ("Unhandled agent tag: " ++ jsToLower bananaTag.name)
      ∈ (parseAgentArtifacts nullOracle [bananaTag]).warnings :=
  parser_unknown_tag_warning nullOracle [bananaTag] bananaTag (by decide)
    (by decide)

/-! ### Claim C9 -/

def autoBodyOneTag : RawTag := { name := "auto", attrs := [], body := "1" }

/-- C9 counterexample: an auto tag with no `enabled` attribute and body "1"
yields `autoAdvance = false`, not `true` (only the attribute maps "1" to
`true`; the body is compared against "true" alone). -/
theorem parser_auto_body_one_counterexample :
    (parseAgentArtifacts nullOracle [autoBodyOneTag]).autoAdvance = some false
    ∧ (parseAgentArtifacts nullOracle [autoBodyOneTag]).autoAdvance
        ≠ some true := by
  constructor
  · decide
  · decide

/-- C9 (amended): for the last auto tag of the input, a truthy `enabled`
attribute sets `autoAdvance` to (`enabled` equals "true" or "1"); otherwise
a non-empty trimmed body sets it to (lowercased body equals "true" — so a
body of "1" yields `false`); otherwise the field is left as the preceding
tags produced it. -/
theorem parser_auto_tag_semantics (oracle : JsonOracle) (tags : List RawTag)
    (t : RawTag) (hname : jsToLower t.name = "auto") :
    (parseAgentArtifacts oracle (tags ++ [t])).autoAdvance =
      (if strTruthy (getAttr t.attrs "enabled") then
          some ((getAttr t.attrs "enabled").getD "" == "true"
            || (getAttr t.attrs "enabled").getD "" == "1")
        else if jsTrim t.body ≠ "" then
          some (jsToLower (jsTrim t.body) == "true")
        else (parseAgentArtifacts oracle tags).autoAdvance) := by
  unfold parseAgentArtifacts
  simp only [List.foldl_append, List.foldl_cons, List.foldl_nil]
  rw [hname]
  unfold handleTag
  rw [if_neg (by decide : ¬("auto" : String) = "analysis"),
      if_neg (by decide : ¬("auto" : String) = "plan"),
      if_neg (by decide : ¬("auto" : String) = "todo-update"),
      if_neg (by decide : ¬("auto" : String) = "log"),
      if_neg (by decide : ¬("auto" : String) = "status"),
      if_neg (by decide : ¬("auto" : String) = "focus"),
      if_pos rfl]
  simp only [handleAutoTag]
  by_cases h1 : strTruthy (getAttr t.attrs "enabled") = true
  · rw [if_pos h1, if_pos h1]
  · rw [if_neg h1, if_neg h1]
    by_cases h2 : jsTrim t.body ≠ ""
    · rw [if_pos h2, if_pos h2]
    · rw [if_neg h2, if_neg h2]

def autoEnabledOneTag : RawTag :=
  { name := "auto", attrs := [("enabled", "1")], body := "" }

/-- Witness for C9 (amended): an `enabled="1"` attribute yields `true`. -/
theorem parser_auto_tag_semantics_witness :
    (parseAgentArtifacts nullOracle ([] ++ [autoEnabledOneTag])).autoAdvance
      = some true := by
  rw [parser_auto_tag_semantics nullOracle [] autoEnabledOneTag (by decide)]
  decide

/-! ### Claim C7 -/

/-- A failed oracle parse gives no value from `parseJsonContent`. -/
theorem parseJsonContent_fst_none {α : Type}
    (oracleResult : String → Option α) (content context : String)
    (h : oracleResult (jsTrim content) = none) :
    (parseJsonContent oracleResult content context).1 = none := by
  simp only [parseJsonContent]
  split
  · rfl
  · rw [h]

/-- The plan handler leaves `plan` unset when the body fails to parse. -/
theorem handlePlanTag_plan_of_none (oracle : JsonOracle)
    (st : AgentParsedArtifacts) (attrs : List (String × String))
    (body : String)
    (h : (parseJsonContent oracle.planResult body "plan").1 = none) :
    (handlePlanTag oracle st attrs body).plan = st.plan := by
  simp only [handlePlanTag, h]

theorem handleTodoUpdateTag_plan (st : AgentParsedArtifacts)
    (attrs : List (String × String)) (body : String) :
    (handleTodoUpdateTag st attrs body).plan = st.plan := by
  simp only [handleTodoUpdateTag]
  repeat' split
  all_goals rfl

theorem handleLogTag_plan (st : AgentParsedArtifacts)
    (attrs : List (String × String)) (body : String) :
    (handleLogTag st attrs body).plan = st.plan := by
  simp only [handleLogTag]
  split
  all_goals rfl

theorem handleStatusTag_plan (st : AgentParsedArtifacts)
    (attrs : List (String × String)) (body : String) :
    (handleStatusTag st attrs body).plan = st.plan := by
  simp only [handleStatusTag]
  split
  all_goals rfl

theorem handleAutoTag_plan (st : AgentParsedArtifacts)
    (attrs : List (String × String)) (body : String) :
    (handleAutoTag st attrs body).plan = st.plan := by
  simp only [handleAutoTag]
  repeat' split
  all_goals rfl

/-- `handleTag` can only set `plan` through a successfully parsed plan tag. -/
theorem handleTag_plan_preserved (oracle : JsonOracle)
    (st : AgentParsedArtifacts) (tagName : String)
    (attrs : List (String × String)) (body : String)
    (h : tagName = "plan" →
      (parseJsonContent oracle.planResult body "plan").1 = none) :
    (handleTag oracle st tagName attrs body).plan = st.plan := by
  unfold handleTag
  repeat' split
  all_goals first
    | rfl
    | (rename_i hp; exact handlePlanTag_plan_of_none oracle st attrs body (h hp))
    | exact handleTodoUpdateTag_plan st attrs body
    | exact handleLogTag_plan st attrs body
    | exact handleStatusTag_plan st attrs body
    | exact handleAutoTag_plan st attrs body

/-- Folding a list of tags none of whose plan tags parses leaves `plan`
untouched. -/
theorem parseFold_plan_preserved (oracle : JsonOracle) :
    ∀ (tags : List RawTag) (st : AgentParsedArtifacts),
      (∀ t ∈ tags, jsToLower t.name = "plan" →
        (parseJsonContent oracle.planResult t.body "plan").1 = none) →
      (tags.foldl
        (fun s t => handleTag oracle s (jsToLower t.name) t.attrs t.body)
        st).plan = st.plan := by
  intro tags
  induction tags with
  | nil => intro st _; rfl
  | cons t rest ih =>
    intro st h
    rw [List.foldl_cons]
    rw [ih _ (fun x hx => h x (List.mem_cons_of_mem t hx))]
    exact handleTag_plan_preserved oracle st (jsToLower t.name) t.attrs t.body
      (h t (List.mem_cons_self t rest))

/-- The analysis handler leaves `analysis` unchanged when the body fails to
parse (`undefined` does not overwrite). -/
theorem handleAnalysisTag_analysis_of_none (oracle : JsonOracle)
    (st : AgentParsedArtifacts) (body : String)
    (h : (parseJsonContent oracle.analysisResult body "analysis").1 = none) :
    (handleAnalysisTag oracle st body).analysis = st.analysis := by
  simp only [handleAnalysisTag, h, Option.none_orElse]

theorem handlePlanTag_analysis (oracle : JsonOracle)
    (st : AgentParsedArtifacts) (attrs : List (String × String))
    (body : String) :
    (handlePlanTag oracle st attrs body).analysis = st.analysis := by
  simp only [handlePlanTag]
  split
  all_goals rfl

theorem handleTodoUpdateTag_analysis (st : AgentParsedArtifacts)
    (attrs : List (String × String)) (body : String) :
    (handleTodoUpdateTag st attrs body).analysis = st.analysis := by
  simp only [handleTodoUpdateTag]
  repeat' split
  all_goals rfl

theorem handleLogTag_analysis (st : AgentParsedArtifacts)
    (attrs : List (String × String)) (body : String) :
    (handleLogTag st attrs body).analysis = st.analysis := by
  simp only [handleLogTag]
  split
  all_goals rfl

theorem handleStatusTag_analysis (st : AgentParsedArtifacts)
    (attrs : List (String × String)) (body : String) :
    (handleStatusTag st attrs body).analysis = st.analysis := by
  simp only [handleStatusTag]
  split
  all_goals rfl

theorem handleAutoTag_analysis (st : AgentParsedArtifacts)
    (attrs : List (String × String)) (body : String) :
    (handleAutoTag st attrs body).analysis = st.analysis := by
  simp only [handleAutoTag]
  repeat' split
  all_goals rfl

/-- `handleTag` can only set `analysis` through a successfully parsed
analysis tag. -/
theorem handleTag_analysis_preserved (oracle : JsonOracle)
    (st : AgentParsedArtifacts) (tagName : String)
    (attrs : List (String × String)) (body : String)
    (h : tagName = "analysis" →
      (parseJsonContent oracle.analysisResult body "analysis").1 = none) :
    (handleTag oracle st tagName attrs body).analysis = st.analysis := by
  unfold handleTag
  repeat' split
  all_goals first
    | rfl
    | (rename_i hp; exact handleAnalysisTag_analysis_of_none oracle st body (h hp))
    | exact handlePlanTag_analysis oracle st attrs body
    | exact handleTodoUpdateTag_analysis st attrs body
    | exact handleLogTag_analysis st attrs body
    | exact handleStatusTag_analysis st attrs body
    | exact handleAutoTag_analysis st attrs body

/-- A successfully parsed analysis tag overwrites `analysis` with its
value. -/
theorem handleTag_analysis_set (oracle : JsonOracle)
    (st : AgentParsedArtifacts) (attrs : List (String × String))
    (body : String) (a : AgentAnalysis)
    (h : (parseJsonContent oracle.analysisResult body "analysis").1 = some a) :
    (handleTag oracle st "analysis" attrs body).analysis = some a := by
  unfold handleTag
  rw [if_pos rfl]
  simp only [handleAnalysisTag, h, Option.some_orElse]

/-- Folding a list of tags none of whose analysis tags parses leaves
`analysis` untouched. -/
theorem parseFold_analysis_preserved (oracle : JsonOracle) :
    ∀ (tags : List RawTag) (st : AgentParsedArtifacts),
      (∀ t ∈ tags, jsToLower t.name = "analysis" →
        (parseJsonContent oracle.analysisResult t.body "analysis").1 = none) →
      (tags.foldl
        (fun s t => handleTag oracle s (jsToLower t.name) t.attrs t.body)
        st).analysis = st.analysis := by
  intro tags
  induction tags with
  | nil => intro st _; rfl
  | cons t rest ih =>
    intro st h
    rw [List.foldl_cons]
    rw [ih _ (fun x hx => h x (List.mem_cons_of_mem t hx))]
    exact handleTag_analysis_preserved oracle st (jsToLower t.name) t.attrs
      t.body (h t (List.mem_cons_self t rest))

/-- A plan tag whose (non-empty) body fails to parse appends the plan parse
warning. -/
theorem handleTag_plan_warning (oracle : JsonOracle)
    (st : AgentParsedArtifacts) (attrs : List (String × String))
    (body : String) (hb : ¬ jsTrim body = "")
    (ho : oracle.planResult (jsTrim body) = none) :
    "Failed to parse JSON for plan"
      ∈ (handleTag oracle st "plan" attrs body).warnings := by
  unfold handleTag
  rw [if_neg (by decide : ¬("plan" : String) = "analysis"), if_pos rfl]
  simp only [handlePlanTag, parseJsonContent, if_neg hb, ho]
  exact List.mem_append_right _ (by simp)

/-- C7: for any match list in which every plan tag's body fails to parse
(in particular one plan tag has a non-empty, syntactically invalid body)
and which contains an analysis tag whose body validates (with no later
analysis tag overriding it), `parseAgentArtifacts` — a total function,
never an exception — returns `plan = none`, a non-empty warning list, and
`analysis` populated from the valid tag. -/
theorem parser_malformed_plan_no_data_loss (oracle : JsonOracle)
    (l1 l2 : List RawTag) (t0 tbad : RawTag) (a : AgentAnalysis)
    (hplans : ∀ t ∈ l1 ++ t0 :: l2, jsToLower t.name = "plan" →
      (parseJsonContent oracle.planResult t.body "plan").1 = none)
    (hbad : tbad ∈ l1 ++ t0 :: l2)
    (hbadname : jsToLower tbad.name = "plan")
    (hbadbody : ¬ jsTrim tbad.body = "")
    (hbadoracle : oracle.planResult (jsTrim tbad.body) = none)
    (ht0name : jsToLower t0.name = "analysis")
    (ht0ok : (parseJsonContent oracle.analysisResult t0.body "analysis").1
      = some a)
    (hl2 : ∀ t ∈ l2, jsToLower t.name = "analysis" →
      (parseJsonContent oracle.analysisResult t.body "analysis").1 = none) :
    (parseAgentArtifacts oracle (l1 ++ t0 :: l2)).plan = none
    ∧ (parseAgentArtifacts oracle (l1 ++ t0 :: l2)).warnings ≠ []
    ∧ (parseAgentArtifacts oracle (l1 ++ t0 :: l2)).analysis = some a := by
  refine ⟨?_, ?_, ?_⟩
  · exact parseFold_plan_preserved oracle (l1 ++ t0 :: l2) {} hplans
  · have hmem : "Failed to parse JSON for plan"
        ∈ (parseAgentArtifacts oracle (l1 ++ t0 :: l2)).warnings := by
      refine parseFold_warning_of_mem oracle tbad _ ?_ (l1 ++ t0 :: l2) {} hbad
      intro s
      rw [hbadname]
      exact handleTag_plan_warning oracle s tbad.attrs tbad.body hbadbody
        hbadoracle
    intro hnil
    rw [hnil] at hmem
    cases hmem
  · unfold parseAgentArtifacts
    rw [List.foldl_append, List.foldl_cons]
    rw [parseFold_analysis_preserved oracle l2 _ hl2]
    rw [ht0name]
    exact handleTag_analysis_set oracle _ t0.attrs t0.body a ht0ok

def validAnalysisBody : String := "\x7b\"goals\":[]\x7d"

def invalidPlanBody : String := "\x7b\"todos\":["

/-- A concrete oracle: the well-formed analysis body validates to the
all-defaults analysis; no plan body parses. -/
def sampleOracle : JsonOracle :=
  { analysisResult := fun s => if s = validAnalysisBody then some {} else none,
    planResult := fun _ => none }

def badPlanTag : RawTag := { name := "plan", attrs := [], body := invalidPlanBody }

def goodAnalysisTag : RawTag :=
  { name := "analysis", attrs := [], body := validAnalysisBody }

/-- Witness for C7 at a concrete two-tag text: a truncated plan body
followed by a valid analysis body. -/
theorem parser_malformed_plan_witness :
    (parseAgentArtifacts sampleOracle ([badPlanTag] ++ goodAnalysisTag :: [])).plan = none
    ∧ (parseAgentArtifacts sampleOracle ([badPlanTag] ++ goodAnalysisTag :: [])).warnings ≠ []
    ∧ (parseAgentArtifacts sampleOracle ([badPlanTag] ++ goodAnalysisTag :: [])).analysis
        = some {} :=
  parser_malformed_plan_no_data_loss sampleOracle [badPlanTag] []
    goodAnalysisTag badPlanTag {} (by decide) (by decide) (by decide)
    (by decide) (by decide) (by decide) (by decide) (by decide)

/-! ## Workflow store service (`agent_workflow_service.ts`)

A single workflow's persisted state; the service functions become pure
state transformers (each source function performs one transactional update
of this workflow's rows). -/

/-- A row of `agent_todos` for this workflow (the surrogate row id and the
timestamps carry no behaviour and are omitted; rows are identified
positionally, updates target the first row matching a `todoId` just as the
source's `findFirst` does). -/
structure TodoRow where
  todoId : String
  title : String := ""
  description : Option String := none
  owner : Option String := none
  inputs : List String := []
  outputs : List String := []
  completionCriteria : Option String := none
  status : TodoStatus := TodoStatus.pending
  dyadTagRefs : List String := []
  orderIndex : Nat := 0
deriving DecidableEq, Repr

/-- A row of `agent_execution_logs`: only the fields the verified
properties could observe (type and content) are kept; the todo row-id
resolution, `todoKey`, `dyadTagRefs` and `metadata` columns are dropped. -/
structure LogEntry where
  logType : LogType
  content : String := ""
deriving DecidableEq, Repr

/-- The `agent_workflows` row plus its todo and log rows. -/
structure WorkflowState where
  status : WorkflowStatus := WorkflowStatus.idle
  planVersion : Int := 0
  currentTodoId : Option String := none
  autoAdvance : Bool := false
  analysis : Option AgentAnalysis := none
  dyadTagContext : List String := []
  todos : List TodoRow := []
  logs : List LogEntry := []
deriving DecidableEq, Repr

/-- The slice of `AgentWorkflowConfig` the post-turn phase reads (logging
verbosity flags only gate external logger output and are omitted). -/
structure AgentConfig where
  enforceOneTodoPerResponse : Bool := true
  maxSimultaneousTodos : Nat := 1
  logEnforcementActions : Bool := true
deriving DecidableEq, Repr

/-- `setAgentWorkflowStatus`. -/
def setAgentWorkflowStatus (w : WorkflowState) (s : WorkflowStatus) :
    WorkflowState :=
  { w with status := s }

/-- `updateAgentAnalysis`: stores the analysis and forces status to
`analysis`. -/
def updateAgentAnalysis (w : WorkflowState) (a : AgentAnalysis) :
    WorkflowState :=
  { w with analysis := some a, status := WorkflowStatus.analysis }

/-- `setAgentCurrentTodo`. -/
def setAgentCurrentTodo (w : WorkflowState) (todoId : Option String) :
    WorkflowState :=
  { w with currentTodoId := todoId }

/-- `setAgentAutoAdvance`. -/
def setAgentAutoAdvance (w : WorkflowState) (enabled : Bool) :
    WorkflowState :=
  { w with autoAdvance := enabled }

/-- `appendAgentLog`. -/
def appendAgentLog (w : WorkflowState) (e : LogEntry) : WorkflowState :=
  { w with logs := w.logs ++ [e] }

/-- One iteration of the `applyAgentTodoUpdates` transaction: find the
first todo row with the update's `todoId` (missing rows are skipped with a
logger warning) and overwrite its status / dyadTagRefs, keeping the old
value where the update carries none. -/
def applyOneTodoUpdate (todos : List TodoRow) (u : AgentTodoUpdate) :
    List TodoRow :=
  match todos.findIdx? (fun row => row.todoId == u.todoId) with
  | none => todos
  | some i =>
    match todos.get? i with
    | none => todos
    | some row =>
      todos.set i { row with
        status := u.status.getD row.status,
        dyadTagRefs := u.dyadTagRefs.getD row.dyadTagRefs }

/-- `applyAgentTodoUpdates`. -/
def applyAgentTodoUpdates (w : WorkflowState)
    (updates : List AgentTodoUpdate) : WorkflowState :=
  { w with todos := updates.foldl applyOneTodoUpdate w.todos }

/-- The row built for position `index` of a committed plan
(`normalizePlan` plus the insert mapping; both assign
`orderIndex := index` and default the status to `pending`). -/
def planTodoRow (index : Nat) (todo : AgentPlanTodoInput) : TodoRow :=
  { todoId := todo.todoId,
    title := todo.title,
    description := todo.description,
    owner := todo.owner,
    inputs := todo.inputs,
    outputs := todo.outputs,
    completionCriteria := todo.completionCriteria,
    status := todo.status.getD TodoStatus.pending,
    dyadTagRefs := todo.dyadTagRefs,
    orderIndex := index }

/-- `replaceAgentPlan(workflowId, plan, opts)` on an existing workflow
(the source throws if the workflow row is missing; the model carries the
state of an existing workflow).  Deletes all todo rows, inserts the plan's
todos in source order, and updates the workflow row in one transaction. -/
def replaceAgentPlan (w : WorkflowState) (plan : AgentPlan)
    (optsStatus : Option WorkflowStatus) : WorkflowState :=
  { w with
    todos := plan.todos.enum.map (fun p => planTodoRow p.1 p.2),
    planVersion := plan.version.getD (w.planVersion + 1),
    status := optsStatus.getD WorkflowStatus.plan_ready,
    currentTodoId := none,
    dyadTagContext := plan.dyadTagContext }

/-! ## Post-turn phase (`processAgentStreamResult`,
`agent_workflow_handlers.ts` lines 438-660)

The function receives the parsed artifact bundle (the parse itself is the
previous section) and the workflow snapshot `workflowBefore` read at entry,
and performs the store mutations in source order.  External logger calls
(`logger.warn`) carry no state and are dropped; the conditional
`appendAgentLog` calls are kept. -/

/-- `artifacts.analysis?.clarifications?.length ??
workflowBefore.analysis?.clarifications?.length ?? 0`: the schema defaults
`clarifications` to `[]`, so a present analysis always supplies the
count. -/
def effectiveClarCount (wfBefore : WorkflowState)
    (artifacts : AgentParsedArtifacts) : Nat :=
  match artifacts.analysis with
  | some a => a.clarifications.length
  | none =>
    match wfBefore.analysis with
    | some a => a.clarifications.length
    | none => 0

/-- The plan gate (lines 533-553): a parsed plan is committed through
`replaceAgentPlan` with status override `plan_ready` unless the effective
analysis still carries clarifications and the workflow has no todos yet.
Returns (state, heldBack, committed). -/
def planStage (wfBefore : WorkflowState) (artifacts : AgentParsedArtifacts)
    (s : WorkflowState) : WorkflowState × Bool × Bool :=
  match artifacts.plan with
  | none => (s, false, false)
  | some plan =>
    if decide (0 < effectiveClarCount wfBefore artifacts)
        && !decide (0 < wfBefore.todos.length) then
      (s, true, false)
    else
      (replaceAgentPlan s plan (some WorkflowStatus.plan_ready), false, true)

/-- The `allowedFocus` set (lines 586-593): the pre-turn active todo id
(normalized, when truthy) and the sanitizer's locked id (when truthy). -/
def allowedFocusList (wfBefore : WorkflowState)
    (handledTodoId : Option String) : List String :=
  (if strTruthy (normalizeTodoId wfBefore.currentTodoId) then
    [(normalizeTodoId wfBefore.currentTodoId).getD ""] else [])
  ++ (if strTruthy handledTodoId then [handledTodoId.getD ""] else [])

/-- The blocking condition of lines 604-608: the requested id normalizes to
a falsy value, or nothing is allowed, or the normalized request is not
allowed. -/
def focusBlockedCond (allowedFocus : List String) (reqId : String) : Bool :=
  !(strTruthy (normalizeTodoId (some reqId)))
    || allowedFocus.isEmpty
    || !(allowedFocus.contains ((normalizeTodoId (some reqId)).getD ""))

/-- The focus resolution (lines 595-627): returns the final
`nextCurrentTodoId` (`none` = `undefined`, `some none` = `null`), whether
`setAgentCurrentTodo` is called, and whether a focus request was blocked. -/
def focusDecision (allowedFocus : List String)
    (requested : Option (Option String)) (completedActiveTodo : Bool) :
    Option (Option String) × Bool × Bool :=
  let base : Option (Option String) × Bool × Bool :=
    match requested with
    | none => (none, false, false)
    | some none => (some none, true, false)
    | some (some reqId) =>
      if focusBlockedCond allowedFocus reqId then (none, false, true)
      else (some (some reqId), true, false)
  if completedActiveTodo then (some none, true, base.2.2) else base

/-- Everything the post-turn phase computes before the focus block. -/
structure PreFocus where
  state : WorkflowState
  sanitized : SanitizeResult
  appliedUpdates : List AgentTodoUpdate
  completedActiveTodo : Bool
  planHeldBack : Bool
  planCommitted : Bool
deriving Repr

/-- A system-type log entry. -/
def systemLog (content : String) : LogEntry :=
  { logType := LogType.system, content := content }

/-- Lines 465-485: one conditional system-log append per dropped update. -/
def droppedLogStage (cfg : AgentConfig)
    (dropped : List (AgentTodoUpdate × String)) (w : WorkflowState) :
    WorkflowState :=
  dropped.foldl (fun acc d =>
    if cfg.logEnforcementActions then
      appendAgentLog acc (systemLog
        ("Blocked attempt to work on multiple TODOs: " ++ d.1.todoId
          ++ " - " ++ d.2))
    else acc) w

/-- Lines 489-527: the defensive post-sanitization diagnostics (counted on
the sanitized set; the `verboseLogging` logger calls carry no state). -/
def enforcementWarnStage (cfg : AgentConfig) (sr : SanitizeResult)
    (w : WorkflowState) : WorkflowState :=
  let completedCount := sr.updates.countP
    (fun u => u.status == some TodoStatus.completed)
  let inProgressCount := sr.updates.countP
    (fun u => u.status == some TodoStatus.in_progress)
  let s1 := if completedCount > 1 && cfg.logEnforcementActions then
      appendAgentLog w (systemLog ("Warning: Agent attempted to complete "
        ++ toString completedCount
        ++ " TODOs in one response. Only human-like, one-task-at-a-time workflow is allowed."))
    else w
  if inProgressCount > cfg.maxSimultaneousTodos
      && cfg.logEnforcementActions then
    appendAgentLog s1 (systemLog ("Notice: Agent started "
      ++ toString inProgressCount
      ++ " TODOs simultaneously. Consider focusing on one task at a time for better human-like workflow."))
  else s1

/-- Lines 529-531: a parsed analysis always overwrites the stored one. -/
def analysisStage (artifacts : AgentParsedArtifacts) (w : WorkflowState) :
    WorkflowState :=
  match artifacts.analysis with
  | some a => updateAgentAnalysis w a
  | none => w

/-- Lines 555-559: the store payload built from the sanitized updates, with
absent statuses defaulted to `in_progress`. -/
def updatesToApply (sr : SanitizeResult) : List AgentTodoUpdate :=
  sr.updates.map (fun u =>
    ({ todoId := u.todoId,
       status := some (u.status.getD TodoStatus.in_progress),
       dyadTagRefs := u.dyadTagRefs,
       note := none } : AgentTodoUpdate))

/-- Lines 564-566. -/
def applyStage (applied : List AgentTodoUpdate) (w : WorkflowState) :
    WorkflowState :=
  if applied.isEmpty then w else applyAgentTodoUpdates w applied

/-- Lines 568-580: append the artifact logs, skipping blank content. -/
def artifactLogStage (logs : List ParsedLog) (w : WorkflowState) :
    WorkflowState :=
  logs.foldl (fun acc le =>
    if jsTrim le.content = "" then acc
    else appendAgentLog acc
      ({ logType := le.logType, content := le.content } : LogEntry)) w

/-- Lines 582-584: an explicit workflow-status tag overwrites status. -/
def statusStage (artifacts : AgentParsedArtifacts) (w : WorkflowState) :
    WorkflowState :=
  match artifacts.workflowStatus with
  | some ws => setAgentWorkflowStatus w ws
  | none => w

/-- Lines 442-584 in source order: sanitize, log dropped updates, emit the
defensive completion/in-progress warnings, store a new analysis, gate and
commit the plan, apply the sanitized todo updates (statuses defaulted to
`in_progress`), append the artifact logs and apply an explicit
workflow-status tag. -/
def preFocus (wfBefore : WorkflowState) (artifacts : AgentParsedArtifacts)
    (cfg : AgentConfig) : PreFocus :=
  let sr := sanitizeTodoUpdates artifacts.todoUpdates wfBefore.currentTodoId
    (some cfg.enforceOneTodoPerResponse) cfg.enforceOneTodoPerResponse
  let s3 := analysisStage artifacts
    (enforcementWarnStage cfg sr (droppedLogStage cfg sr.dropped wfBefore))
  let planned := planStage wfBefore artifacts s3
  let applied := updatesToApply sr
  { state := statusStage artifacts
      (artifactLogStage artifacts.logs (applyStage applied planned.1)),
    sanitized := sr,
    appliedUpdates := applied,
    completedActiveTodo := applied.any
      (fun u => u.status == some TodoStatus.completed),
    planHeldBack := planned.2.1,
    planCommitted := planned.2.2 }

/-- The value returned by `processAgentStreamResult`, together with the
observable decisions of this turn (the mutated `artifacts.todoUpdates` and
`artifacts.currentTodoId` fields, the sanitizer outputs, and the gate
flags that the source reports through its logger). -/
structure ProcessResult where
  workflow : WorkflowState
  todoUpdatesOut : List AgentTodoUpdate
  currentTodoIdOut : Option (Option String)
  appliedUpdates : List AgentTodoUpdate
  handledTodoId : Option String
  dropped : List (AgentTodoUpdate × String)
  completedActiveTodo : Bool
  planHeldBack : Bool
  planCommitted : Bool
  focusRequestBlocked : Bool
  shouldAutoContinue : Bool
deriving Repr

/-- `processAgentStreamResult(workflowId, responseText)` after parsing:
the full post-turn phase on the workflow state `wfBefore`. -/
def processAgentStreamResult (wfBefore : WorkflowState)
    (artifacts : AgentParsedArtifacts) (cfg : AgentConfig) : ProcessResult :=
  let pf := preFocus wfBefore artifacts cfg
  let allowedFocus := allowedFocusList wfBefore pf.sanitized.handledTodoId
  let fd := focusDecision allowedFocus artifacts.currentTodoId
    pf.completedActiveTodo
  let s1 := if fd.2.1 then setAgentCurrentTodo pf.state fd.1.join else pf.state
  let s2 := match artifacts.autoAdvance with
    | some b => setAgentAutoAdvance s1 b
    | none => s1
  let pendingTodos := s2.todos.filter
    (fun todo => todo.status != TodoStatus.completed)
  let activeTodo := s2.todos.find?
    (fun todo => s2.currentTodoId == some todo.todoId)
  let shouldAutoContinue := s2.autoAdvance
    && !pf.completedActiveTodo
    && !fd.2.2
    && decide ((0 : Nat) < pendingTodos.length)
    && (match activeTodo with
        | none => true
        | some todo => todo.status != TodoStatus.in_progress)
  { workflow := s2,
    todoUpdatesOut := pf.sanitized.updates,
    currentTodoIdOut := fd.1,
    appliedUpdates := pf.appliedUpdates,
    handledTodoId := pf.sanitized.handledTodoId,
    dropped := pf.sanitized.dropped,
    completedActiveTodo := pf.completedActiveTodo,
    planHeldBack := pf.planHeldBack,
    planCommitted := pf.planCommitted,
    focusRequestBlocked := fd.2.2,
    shouldAutoContinue := shouldAutoContinue }

/-! ### Frame lemmas for the store transformers and stages -/

theorem foldl_proj_preserved {α β : Type} (proj : WorkflowState → β)
    (f : WorkflowState → α → WorkflowState)
    (hf : ∀ s x, proj (f s x) = proj s) :
    ∀ (l : List α) (s : WorkflowState), proj (l.foldl f s) = proj s := by
  intro l
  induction l with
  | nil => intro s; rfl
  | cons x xs ih => intro s; rw [List.foldl_cons, ih, hf]

theorem droppedLogStage_proj {β : Type} (proj : WorkflowState → β)
    (hproj : ∀ w e, proj (appendAgentLog w e) = proj w)
    (cfg : AgentConfig) (dropped : List (AgentTodoUpdate × String))
    (w : WorkflowState) : proj (droppedLogStage cfg dropped w) = proj w :=
  foldl_proj_preserved proj _ (fun s x => by
    split
    · exact hproj s _
    · rfl) dropped w

theorem enforcementWarnStage_proj {β : Type} (proj : WorkflowState → β)
    (hproj : ∀ w e, proj (appendAgentLog w e) = proj w)
    (cfg : AgentConfig) (sr : SanitizeResult) (w : WorkflowState) :
    proj (enforcementWarnStage cfg sr w) = proj w := by
  simp only [enforcementWarnStage]
  split
  · rw [hproj]
    split
    · rw [hproj]
    · rfl
  · split
    · rw [hproj]
    · rfl

theorem artifactLogStage_proj {β : Type} (proj : WorkflowState → β)
    (hproj : ∀ w e, proj (appendAgentLog w e) = proj w)
    (logs : List ParsedLog) (w : WorkflowState) :
    proj (artifactLogStage logs w) = proj w :=
  foldl_proj_preserved proj _ (fun s x => by
    split
    · rfl
    · exact hproj s _) logs w

theorem planStage_state_of_not_committed (wfBefore : WorkflowState)
    (artifacts : AgentParsedArtifacts) (s : WorkflowState)
    (h : (planStage wfBefore artifacts s).2.2 = false) :
    (planStage wfBefore artifacts s).1 = s := by
  revert h
  unfold planStage
  split
  · intro _; rfl
  · split
    · intro _; rfl
    · intro h; cases h

theorem analysisStage_proj {β : Type} (proj : WorkflowState → β)
    (hproj : ∀ w a, proj (updateAgentAnalysis w a) = proj w)
    (artifacts : AgentParsedArtifacts) (w : WorkflowState) :
    proj (analysisStage artifacts w) = proj w := by
  unfold analysisStage
  split
  · exact hproj _ _
  · rfl

theorem statusStage_proj {β : Type} (proj : WorkflowState → β)
    (hproj : ∀ w ws, proj (setAgentWorkflowStatus w ws) = proj w)
    (artifacts : AgentParsedArtifacts) (w : WorkflowState) :
    proj (statusStage artifacts w) = proj w := by
  unfold statusStage
  split
  · exact hproj _ _
  · rfl

theorem applyStage_proj {β : Type} (proj : WorkflowState → β)
    (hproj : ∀ w us, proj (applyAgentTodoUpdates w us) = proj w)
    (applied : List AgentTodoUpdate) (w : WorkflowState) :
    proj (applyStage applied w) = proj w := by
  unfold applyStage
  split
  · rfl
  · exact hproj _ _

/-! ### Claim C4 -/

/-- C4 (amended): after `replaceAgentPlan` on an existing workflow, the
todo set is exactly the plan's todos, in plan order, with `orderIndex`
equal to each todo's position; `planVersion` becomes the old version plus
one when the plan carries no explicit version (hence strictly increases in
that case) and becomes the explicit version verbatim when one is provided;
`currentTodoId` is cleared; status becomes `plan_ready` unless an override
status is supplied. -/
theorem replaceAgentPlan_spec (w : WorkflowState) (plan : AgentPlan)
    (optsStatus : Option WorkflowStatus) :
    ((replaceAgentPlan w plan optsStatus).todos.map (fun r => r.todoId)
        = plan.todos.map (fun t => t.todoId))
    ∧ ((replaceAgentPlan w plan optsStatus).todos.map (fun r => r.orderIndex)
        = List.range plan.todos.length)
    ∧ (replaceAgentPlan w plan optsStatus).planVersion
        = plan.version.getD (w.planVersion + 1)
    ∧ (plan.version = none →
        w.planVersion < (replaceAgentPlan w plan optsStatus).planVersion)
    ∧ (∀ v, plan.version = some v →
        (replaceAgentPlan w plan optsStatus).planVersion = v)
    ∧ (replaceAgentPlan w plan optsStatus).currentTodoId = none
    ∧ (optsStatus = none →
        (replaceAgentPlan w plan optsStatus).status = WorkflowStatus.plan_ready)
    ∧ (∀ st, optsStatus = some st →
        (replaceAgentPlan w plan optsStatus).status = st) := by
  refine ⟨?_, ?_, rfl, ?_, ?_, rfl, ?_, ?_⟩
  · show (plan.todos.enum.map (fun p => planTodoRow p.1 p.2)).map
        (fun r => r.todoId) = _
    rw [List.map_map]
    have hcomp : ((fun r : TodoRow => r.todoId)
          ∘ fun p : Nat × AgentPlanTodoInput => planTodoRow p.1 p.2)
        = (fun t : AgentPlanTodoInput => t.todoId) ∘ Prod.snd := rfl
    rw [hcomp, ← List.map_map, List.enum_map_snd]
  · show (plan.todos.enum.map (fun p => planTodoRow p.1 p.2)).map
        (fun r => r.orderIndex) = _
    rw [List.map_map]
    have hcomp : ((fun r : TodoRow => r.orderIndex)
          ∘ fun p : Nat × AgentPlanTodoInput => planTodoRow p.1 p.2)
        = Prod.fst := rfl
    rw [hcomp, List.enum_map_fst]
  · intro hv
    show w.planVersion < plan.version.getD (w.planVersion + 1)
    rw [hv]
    exact lt_add_one w.planVersion
  · intro v hv
    show plan.version.getD (w.planVersion + 1) = v
    rw [hv]
    rfl
  · intro h
    show optsStatus.getD WorkflowStatus.plan_ready = WorkflowStatus.plan_ready
    rw [h]
    rfl
  · intro st h
    show optsStatus.getD WorkflowStatus.plan_ready = st
    rw [h]
    rfl

def wfVersionFive : WorkflowState :=
  { status := WorkflowStatus.executing, planVersion := 5,
    currentTodoId := some "TD-01" }

def planVersionThree : AgentPlan := { version := some 3 }

/-- C4 counterexample: an explicit plan version smaller than the stored
`planVersion` is written verbatim, so `planVersion` does not strictly
increase. -/
theorem replaceAgentPlan_version_counterexample :
    (replaceAgentPlan wfVersionFive planVersionThree none).planVersion = 3
    ∧ ¬ (wfVersionFive.planVersion
        < (replaceAgentPlan wfVersionFive planVersionThree none).planVersion) := by
  constructor
  · decide
  · decide

/-- Witness for C4 (amended): without an explicit version the plan bump is
a strict increase. -/
theorem replaceAgentPlan_spec_witness :
    wfVersionFive.planVersion
      < (replaceAgentPlan wfVersionFive { todos := [] } none).planVersion :=
  (replaceAgentPlan_spec wfVersionFive { todos := [] } none).2.2.2.1 rfl

theorem droppedLogStage_planVersion (cfg : AgentConfig)
    (dropped : List (AgentTodoUpdate × String)) (w : WorkflowState) :
    (droppedLogStage cfg dropped w).planVersion = w.planVersion :=
  droppedLogStage_proj (fun x => x.planVersion) (fun _ _ => rfl) cfg dropped w

theorem droppedLogStage_todos (cfg : AgentConfig)
    (dropped : List (AgentTodoUpdate × String)) (w : WorkflowState) :
    (droppedLogStage cfg dropped w).todos = w.todos :=
  droppedLogStage_proj (fun x => x.todos) (fun _ _ => rfl) cfg dropped w

theorem enforcementWarnStage_planVersion (cfg : AgentConfig)
    (sr : SanitizeResult) (w : WorkflowState) :
    (enforcementWarnStage cfg sr w).planVersion = w.planVersion :=
  enforcementWarnStage_proj (fun x => x.planVersion) (fun _ _ => rfl) cfg sr w

theorem enforcementWarnStage_todos (cfg : AgentConfig)
    (sr : SanitizeResult) (w : WorkflowState) :
    (enforcementWarnStage cfg sr w).todos = w.todos :=
  enforcementWarnStage_proj (fun x => x.todos) (fun _ _ => rfl) cfg sr w

theorem analysisStage_planVersion (artifacts : AgentParsedArtifacts)
    (w : WorkflowState) :
    (analysisStage artifacts w).planVersion = w.planVersion :=
  analysisStage_proj (fun x => x.planVersion) (fun _ _ => rfl) artifacts w

theorem analysisStage_todos (artifacts : AgentParsedArtifacts)
    (w : WorkflowState) :
    (analysisStage artifacts w).todos = w.todos :=
  analysisStage_proj (fun x => x.todos) (fun _ _ => rfl) artifacts w

theorem applyStage_planVersion (applied : List AgentTodoUpdate)
    (w : WorkflowState) :
    (applyStage applied w).planVersion = w.planVersion :=
  applyStage_proj (fun x => x.planVersion) (fun _ _ => rfl) applied w

theorem artifactLogStage_planVersion (logs : List ParsedLog)
    (w : WorkflowState) :
    (artifactLogStage logs w).planVersion = w.planVersion :=
  artifactLogStage_proj (fun x => x.planVersion) (fun _ _ => rfl) logs w

theorem artifactLogStage_todos (logs : List ParsedLog) (w : WorkflowState) :
    (artifactLogStage logs w).todos = w.todos :=
  artifactLogStage_proj (fun x => x.todos) (fun _ _ => rfl) logs w

theorem statusStage_planVersion (artifacts : AgentParsedArtifacts)
    (w : WorkflowState) :
    (statusStage artifacts w).planVersion = w.planVersion :=
  statusStage_proj (fun x => x.planVersion) (fun _ _ => rfl) artifacts w

theorem statusStage_todos (artifacts : AgentParsedArtifacts)
    (w : WorkflowState) :
    (statusStage artifacts w).todos = w.todos :=
  statusStage_proj (fun x => x.todos) (fun _ _ => rfl) artifacts w

/-- The final workflow's `planVersion` is whatever the pre-focus phase
left (focus and auto-advance writes touch other columns). -/
theorem process_workflow_planVersion (wf : WorkflowState)
    (a : AgentParsedArtifacts) (cfg : AgentConfig) :
    (processAgentStreamResult wf a cfg).workflow.planVersion
      = (preFocus wf a cfg).state.planVersion := by
  unfold processAgentStreamResult
  dsimp only
  split
  · split <;> rfl
  · split <;> rfl

/-- The final workflow's todo rows are whatever the pre-focus phase left. -/
theorem process_workflow_todos (wf : WorkflowState)
    (a : AgentParsedArtifacts) (cfg : AgentConfig) :
    (processAgentStreamResult wf a cfg).workflow.todos
      = (preFocus wf a cfg).state.todos := by
  unfold processAgentStreamResult
  dsimp only
  split
  · split <;> rfl
  · split <;> rfl

/-! ### Claim C5 -/

/-- The gate decision does not depend on the state the stage runs on. -/
theorem planStage_snd (wfBefore : WorkflowState)
    (artifacts : AgentParsedArtifacts) (s s2 : WorkflowState) :
    (planStage wfBefore artifacts s).2 = (planStage wfBefore artifacts s2).2 := by
  unfold planStage
  split
  · rfl
  · split <;> rfl

/-- Characterization of "the plan is not committed" when a plan is
present. -/
theorem planStage_committed_iff (wfBefore : WorkflowState)
    (artifacts : AgentParsedArtifacts) (s : WorkflowState) (p : AgentPlan)
    (hp : artifacts.plan = some p) :
    ((planStage wfBefore artifacts s).2.2 = false ↔
      (0 < effectiveClarCount wfBefore artifacts
        ∧ wfBefore.todos.length = 0)) := by
  simp only [planStage, hp]
  split
  · rename_i hcond
    simp only [Bool.and_eq_true, Bool.not_eq_true', decide_eq_true_eq,
      decide_eq_false_iff_not] at hcond
    refine iff_of_true rfl ⟨hcond.1, ?_⟩
    omega
  · rename_i hcond
    refine iff_of_false (by simp) ?_
    rintro ⟨h1, h2⟩
    exact hcond (by simp [h1, h2])

/-- When the gate holds back the plan, the planVersion column survives the
whole post-turn phase unchanged. -/
theorem preFocus_state_planVersion (wfBefore : WorkflowState)
    (artifacts : AgentParsedArtifacts) (cfg : AgentConfig)
    (h : (preFocus wfBefore artifacts cfg).planCommitted = false) :
    (preFocus wfBefore artifacts cfg).state.planVersion
      = wfBefore.planVersion := by
  unfold preFocus at h ⊢
  dsimp only at h ⊢
  rw [statusStage_planVersion, artifactLogStage_planVersion,
    applyStage_planVersion, planStage_state_of_not_committed _ _ _ h,
    analysisStage_planVersion, enforcementWarnStage_planVersion,
    droppedLogStage_planVersion]

/-- C5: with a parsed plan present, the plan is held back (not committed:
`replaceAgentPlan` is not run, the plan stage is the identity on the
state, and `planVersion` is untouched by the whole turn) exactly when the
effective analysis — the newly parsed one if present, else the stored one —
has at least one clarification and the workflow has no todos yet. -/
theorem plan_gate_spec (wfBefore : WorkflowState)
    (artifacts : AgentParsedArtifacts) (cfg : AgentConfig) (p : AgentPlan)
    (hp : artifacts.plan = some p) :
    (((processAgentStreamResult wfBefore artifacts cfg).planCommitted = false) ↔
      (0 < effectiveClarCount wfBefore artifacts
        ∧ wfBefore.todos.length = 0))
    ∧ (((processAgentStreamResult wfBefore artifacts cfg).planCommitted = false) →
        ∀ s : WorkflowState, (planStage wfBefore artifacts s).1 = s)
    ∧ (((processAgentStreamResult wfBefore artifacts cfg).planCommitted = false) →
        (processAgentStreamResult wfBefore artifacts cfg).workflow.planVersion
          = wfBefore.planVersion) := by
  refine ⟨?_, ?_, ?_⟩
  · exact planStage_committed_iff wfBefore artifacts _ p hp
  · intro h s
    obtain ⟨h1, h2⟩ := (planStage_committed_iff wfBefore artifacts _ p hp).mp h
    simp only [planStage, hp]
    rw [if_pos (by simp [h1, h2] :
      (decide (0 < effectiveClarCount wfBefore artifacts)
        && !decide (0 < wfBefore.todos.length)) = true)]
  · intro h
    rw [process_workflow_planVersion]
    exact preFocus_state_planVersion wfBefore artifacts cfg h

def clarAnalysis : AgentAnalysis :=
  { clarifications := ["Which database should be used?"] }

def wfAwaiting : WorkflowState := { analysis := some clarAnalysis }

def simplePlan : AgentPlan :=
  { todos := [{ todoId := "TD-01", title := "Build the schema" }] }

def planOnlyArtifacts : AgentParsedArtifacts := { plan := some simplePlan }

def defaultConfig : AgentConfig := {}

/-- Witness for C5: stored clarifications and an empty todo list hold an
emitted plan back and leave `planVersion` alone. -/
theorem plan_gate_spec_witness :
    (processAgentStreamResult wfAwaiting planOnlyArtifacts
        defaultConfig).planCommitted = false
    ∧ (processAgentStreamResult wfAwaiting planOnlyArtifacts
        defaultConfig).workflow.planVersion = wfAwaiting.planVersion := by
  have h := plan_gate_spec wfAwaiting planOnlyArtifacts defaultConfig
    simplePlan rfl
  have hfalse : (processAgentStreamResult wfAwaiting planOnlyArtifacts
      defaultConfig).planCommitted = false :=
    h.1.mpr ⟨by decide, by decide⟩
  exact ⟨hfalse, h.2.2 hfalse⟩

/-! ### Claim C3 -/

/-- A blocked focus request resolves exactly like an absent one, except
that the blocked flag is raised. -/
theorem focusDecision_blocked (allowed : List String) (reqId : String)
    (completed : Bool) (h : focusBlockedCond allowed reqId = true) :
    focusDecision allowed (some (some reqId)) completed
      = ((focusDecision allowed none completed).1,
         (focusDecision allowed none completed).2.1, true) := by
  unfold focusDecision
  cases completed <;> simp [h]

/-- A clear-focus request (explicit null) always updates, to null. -/
theorem focusDecision_clear (allowed : List String) (completed : Bool) :
    (focusDecision allowed (some none) completed).1 = some none
    ∧ (focusDecision allowed (some none) completed).2.1 = true := by
  unfold focusDecision
  cases completed <;> simp

/-- A completion this turn forces the focus to null. -/
theorem focusDecision_completed (allowed : List String)
    (requested : Option (Option String)) :
    (focusDecision allowed requested true).1 = some none
    ∧ (focusDecision allowed requested true).2.1 = true := by
  unfold focusDecision
  simp

/-- C3: a focus-change request to an id outside the allowed set
{normalized pre-turn active id, sanitizer-locked id} is discarded — the
final workflow is identical to the run with no focus request at all (in
particular the request does not mutate `currentTodoId`) and the blocked
flag is raised; an explicit null request always clears the focus; and any
sanitized completion this turn forces `currentTodoId` to null. -/
theorem focus_gating_spec (wfBefore : WorkflowState)
    (artifacts : AgentParsedArtifacts) (cfg : AgentConfig) :
    (∀ reqId : String,
      artifacts.currentTodoId = some (some reqId) →
      focusBlockedCond (allowedFocusList wfBefore
        (sanitizeTodoUpdates artifacts.todoUpdates wfBefore.currentTodoId
          (some cfg.enforceOneTodoPerResponse)
          cfg.enforceOneTodoPerResponse).handledTodoId) reqId = true →
      ((processAgentStreamResult wfBefore artifacts cfg).workflow
          = (processAgentStreamResult wfBefore
              { artifacts with currentTodoId := none } cfg).workflow
        ∧ (processAgentStreamResult wfBefore artifacts
            cfg).focusRequestBlocked = true))
    ∧ (artifacts.currentTodoId = some none →
        (processAgentStreamResult wfBefore artifacts
          cfg).workflow.currentTodoId = none)
    ∧ ((processAgentStreamResult wfBefore artifacts
          cfg).completedActiveTodo = true →
        (processAgentStreamResult wfBefore artifacts
          cfg).workflow.currentTodoId = none) := by
  refine ⟨?_, ?_, ?_⟩
  · intro reqId hreq hblock
    have hblock2 : focusBlockedCond (allowedFocusList wfBefore
        (preFocus wfBefore artifacts cfg).sanitized.handledTodoId) reqId
        = true := hblock
    constructor
    · unfold processAgentStreamResult
      dsimp only
      have hpf : preFocus wfBefore { artifacts with currentTodoId := none } cfg
          = preFocus wfBefore artifacts cfg := rfl
      rw [hpf, hreq]
      rw [focusDecision_blocked _ _ _ hblock2]
    · unfold processAgentStreamResult
      dsimp only
      rw [hreq, focusDecision_blocked _ _ _ hblock2]
  · intro h
    unfold processAgentStreamResult
    dsimp only
    rw [h]
    obtain ⟨h1, h2⟩ := focusDecision_clear (allowedFocusList wfBefore
      (preFocus wfBefore artifacts cfg).sanitized.handledTodoId)
      (preFocus wfBefore artifacts cfg).completedActiveTodo
    rw [if_pos h2, h1]
    split <;> rfl
  · intro h
    have h2 : (preFocus wfBefore artifacts cfg).completedActiveTodo = true := h
    unfold processAgentStreamResult
    dsimp only
    rw [h2]
    obtain ⟨h3, h4⟩ := focusDecision_completed (allowedFocusList wfBefore
      (preFocus wfBefore artifacts cfg).sanitized.handledTodoId)
      artifacts.currentTodoId
    rw [if_pos h4, h3]
    split <;> rfl

def wfFocused : WorkflowState :=
  { currentTodoId := some "TD-01",
    todos := [{ todoId := "TD-01", title := "Task",
                status := TodoStatus.in_progress }] }

def focusRequestArtifacts : AgentParsedArtifacts :=
  { currentTodoId := some (some "TD-99") }

/-- Witness for C3 at a concrete blocked focus request. -/
theorem focus_gating_spec_witness :
    (processAgentStreamResult wfFocused focusRequestArtifacts
        defaultConfig).workflow
      = (processAgentStreamResult wfFocused
          { focusRequestArtifacts with currentTodoId := none }
          defaultConfig).workflow
    ∧ (processAgentStreamResult wfFocused focusRequestArtifacts
        defaultConfig).focusRequestBlocked = true :=
  (focus_gating_spec wfFocused focusRequestArtifacts defaultConfig).1
    "TD-99" rfl (by decide)

/-! ### Claim C10 -/

theorem planStage_state_of_plan_none (wfBefore : WorkflowState)
    (artifacts : AgentParsedArtifacts) (s : WorkflowState)
    (h : artifacts.plan = none) :
    (planStage wfBefore artifacts s).1 = s := by
  simp [planStage, h]

/-- C10: a sanitized todo update carrying no status is applied to the
store with status `in_progress`: the store payload defaults the status,
and the first todo row matching the update's id ends the turn with status
`in_progress` (its dyadTagRefs merged), all other rows untouched. -/
theorem statusless_update_in_progress (wfBefore : WorkflowState)
    (artifacts : AgentParsedArtifacts) (cfg : AgentConfig)
    (u : AgentTodoUpdate)
    (hupd : artifacts.todoUpdates = [u])
    (hstatus : u.status = none)
    (hraw : ¬ jsTrim u.todoId = "")
    (hact : strTruthy (normalizeTodoId wfBefore.currentTodoId) = false
      ∨ normalizeTodoId wfBefore.currentTodoId = some (normOf u))
    (hplan : artifacts.plan = none) :
    ((processAgentStreamResult wfBefore artifacts cfg).appliedUpdates
        = [{ todoId := u.todoId, status := some TodoStatus.in_progress,
             dyadTagRefs := u.dyadTagRefs, note := none }])
    ∧ (∀ i, wfBefore.todos.findIdx? (fun row => row.todoId == u.todoId)
          = some i →
        ∀ row, wfBefore.todos.get? i = some row →
        (processAgentStreamResult wfBefore artifacts cfg).workflow.todos
          = wfBefore.todos.set i { row with
              status := TodoStatus.in_progress,
              dyadTagRefs := u.dyadTagRefs.getD row.dyadTagRefs }) := by
  have hne : jsToUpper (jsTrim u.todoId) ≠ "" := jsToUpper_ne_empty hraw
  have hsr : sanitizeTodoUpdates artifacts.todoUpdates wfBefore.currentTodoId
      (some cfg.enforceOneTodoPerResponse) cfg.enforceOneTodoPerResponse
      = { updates := [u], handledTodoId := some (normOf u), dropped := [] } := by
    rw [hupd]
    rcases hact with h | h
    · simp [sanitizeTodoUpdates, sanitizeGo, hraw, h, hstatus, normOf, hne]
    · simp [sanitizeTodoUpdates, sanitizeGo, hraw, h, hstatus, normOf, hne,
        strTruthy]
  have hta : updatesToApply
      ({ updates := [u], handledTodoId := some (normOf u), dropped := [] }
        : SanitizeResult)
      = [{ todoId := u.todoId, status := some TodoStatus.in_progress,
           dyadTagRefs := u.dyadTagRefs, note := none }] := by
    simp [updatesToApply, hstatus]
  constructor
  · have h0 : (processAgentStreamResult wfBefore artifacts cfg).appliedUpdates
        = updatesToApply (sanitizeTodoUpdates artifacts.todoUpdates
          wfBefore.currentTodoId (some cfg.enforceOneTodoPerResponse)
          cfg.enforceOneTodoPerResponse) := rfl
    rw [h0, hsr, hta]
  · intro i hidx row hrow
    rw [process_workflow_todos]
    unfold preFocus
    dsimp only
    rw [statusStage_todos, artifactLogStage_todos, hsr, hta,
      planStage_state_of_plan_none _ _ _ hplan]
    simp only [applyStage, List.isEmpty_cons, applyAgentTodoUpdates,
      List.foldl_cons, List.foldl_nil]
    rw [if_neg (by simp)]
    simp only [applyOneTodoUpdate]
    rw [analysisStage_todos, enforcementWarnStage_todos, droppedLogStage_todos]
    rw [hidx]
    dsimp only
    rw [hrow]
    simp only [Option.getD_some]

def pendingTodoRow : TodoRow := { todoId := "TD-01", title := "Task" }

def wfPending : WorkflowState := { todos := [pendingTodoRow] }

def noteUpdate : AgentTodoUpdate :=
  { todoId := "TD-01", note := some "working on it" }

def noteArtifacts : AgentParsedArtifacts := { todoUpdates := [noteUpdate] }

/-- Witness for C10: a note-only todo-update moves the pending row to
`in_progress`. -/
theorem statusless_update_in_progress_witness :
    (processAgentStreamResult wfPending noteArtifacts
        defaultConfig).workflow.todos
      = wfPending.todos.set 0 { pendingTodoRow with
          status := TodoStatus.in_progress,
          dyadTagRefs := noteUpdate.dyadTagRefs.getD pendingTodoRow.dyadTagRefs } :=
  (statusless_update_in_progress wfPending noteArtifacts defaultConfig
      noteUpdate rfl rfl (by decide) (Or.inl (by decide)) rfl).2
    0 (by decide) pendingTodoRow (by decide)

/-! ### Claim C6 -/

/-- Defaulting absent statuses to `in_progress` neither adds nor removes
completions. -/
theorem updatesToApply_any (sr : SanitizeResult) :
    (updatesToApply sr).any (fun u => u.status == some TodoStatus.completed)
      = sr.updates.any (fun u => u.status == some TodoStatus.completed) := by
  unfold updatesToApply
  rw [List.any_map]
  congr 1
  funext u
  cases h : u.status <;> simp [h]

theorem preFocus_completedActiveTodo (wf : WorkflowState)
    (a : AgentParsedArtifacts) (cfg : AgentConfig) :
    (preFocus wf a cfg).completedActiveTodo
      = (sanitizeTodoUpdates a.todoUpdates wf.currentTodoId
          (some cfg.enforceOneTodoPerResponse)
          cfg.enforceOneTodoPerResponse).updates.any
        (fun u => u.status == some TodoStatus.completed) := by
  show (updatesToApply _).any _ = _
  rw [updatesToApply_any]

theorem any_completed_eq_false_iff (l : List AgentTodoUpdate) :
    (l.any (fun u => u.status == some TodoStatus.completed) = false)
      ↔ ∀ u ∈ l, ¬ u.status = some TodoStatus.completed := by
  rw [← Bool.not_eq_true, List.any_eq_true]
  simp

theorem filter_pending_pos (l : List TodoRow) :
    ((0 : Nat) < (l.filter (fun t => t.status != TodoStatus.completed)).length)
      ↔ ∃ t ∈ l, ¬ t.status = TodoStatus.completed := by
  rw [List.length_pos]
  constructor
  · intro h
    rcases List.exists_mem_of_ne_nil _ h with ⟨t, ht⟩
    rcases List.mem_filter.mp ht with ⟨hmem, hpred⟩
    exact ⟨t, hmem, by simpa using hpred⟩
  · rintro ⟨t, hmem, hpred⟩ hnil
    have hmem2 : t ∈ l.filter (fun t => t.status != TodoStatus.completed) :=
      List.mem_filter.mpr ⟨hmem, by simpa using hpred⟩
    rw [hnil] at hmem2
    cases hmem2

theorem find_not_in_progress (l : List TodoRow) (cur : Option String) :
    ((match l.find? (fun todo => cur == some todo.todoId) with
      | none => true
      | some todo => todo.status != TodoStatus.in_progress) = true)
      ↔ ∀ t, l.find? (fun todo => cur == some todo.todoId) = some t →
          ¬ t.status = TodoStatus.in_progress := by
  cases h : l.find? (fun todo => cur == some todo.todoId) with
  | none => simp
  | some t => simp

/-- C6: the returned `shouldAutoContinue` is true exactly when auto-advance
is on, this turn's sanitized updates completed nothing, no focus request
was blocked, some todo is still incomplete, and the todo matching
`currentTodoId` (if any) is not already `in_progress`. -/
theorem auto_continue_spec (wfBefore : WorkflowState)
    (artifacts : AgentParsedArtifacts) (cfg : AgentConfig) :
    ((processAgentStreamResult wfBefore artifacts cfg).shouldAutoContinue = true
      ↔ ((processAgentStreamResult wfBefore artifacts cfg).workflow.autoAdvance
            = true
        ∧ (∀ u ∈ (sanitizeTodoUpdates artifacts.todoUpdates
              wfBefore.currentTodoId (some cfg.enforceOneTodoPerResponse)
              cfg.enforceOneTodoPerResponse).updates,
            ¬ u.status = some TodoStatus.completed)
        ∧ (processAgentStreamResult wfBefore artifacts
            cfg).focusRequestBlocked = false
        ∧ (∃ t ∈ (processAgentStreamResult wfBefore artifacts
              cfg).workflow.todos, ¬ t.status = TodoStatus.completed)
        ∧ (∀ t, (processAgentStreamResult wfBefore artifacts
              cfg).workflow.todos.find?
              (fun todo => (processAgentStreamResult wfBefore artifacts
                cfg).workflow.currentTodoId == some todo.todoId) = some t →
            ¬ t.status = TodoStatus.in_progress))) := by
  have hcomp := preFocus_completedActiveTodo wfBefore artifacts cfg
  unfold processAgentStreamResult
  dsimp only
  rw [hcomp]
  constructor
  · intro h
    simp only [Bool.and_eq_true] at h
    obtain ⟨⟨⟨⟨hA, hB⟩, hC⟩, hD⟩, hE⟩ := h
    refine ⟨hA, ?_, ?_, ?_, ?_⟩
    · exact (any_completed_eq_false_iff _).mp (by simpa using hB)
    · simpa using hC
    · exact (filter_pending_pos _).mp (by simpa using hD)
    · exact (find_not_in_progress _ _).mp hE
  · rintro ⟨hA, hB, hC, hD, hE⟩
    simp only [Bool.and_eq_true]
    refine ⟨⟨⟨⟨hA, ?_⟩, ?_⟩, ?_⟩, ?_⟩
    · simp [(any_completed_eq_false_iff _).mpr hB]
    · simp [hC]
    · simpa using (filter_pending_pos _).mpr hD
    · exact (find_not_in_progress _ _).mpr hE

def wfAuto : WorkflowState :=
  { autoAdvance := true, todos := [{ todoId := "TD-01", title := "Task" }] }

def emptyArtifacts : AgentParsedArtifacts := {}

/-- Witness for C6: auto-advance on, nothing completed or blocked, one
pending unfocused todo — the turn asks for auto-continue. -/
theorem auto_continue_spec_witness :
    (processAgentStreamResult wfAuto emptyArtifacts
        defaultConfig).shouldAutoContinue = true := by
  apply (auto_continue_spec wfAuto emptyArtifacts defaultConfig).mpr
  refine ⟨by decide, by decide, by decide, by decide, ?_⟩
  intro t ht
  rw [show (processAgentStreamResult wfAuto emptyArtifacts
      defaultConfig).workflow.todos.find?
      (fun todo => (processAgentStreamResult wfAuto emptyArtifacts
        defaultConfig).workflow.currentTodoId == some todo.todoId) = none
    from by decide] at ht
  cases ht
